import Mathlib

/-!
# The flute request matcher

A shallow embedding of `flute/matcher.go`: the predicate library
(`matchPath`, `matchMethod`, `matchHeader`, `isMatchPartOfHeader`,
`isMatchPartOfQuery`, `isMatchBodyString`, `isMatchBodyJSON`,
`isMatchBodyJSONString`) and the matcher evaluator `isMatch`.

Conventions of the embedding.

* Go strings and byte slices are Lean strings.
* A Go `[]string` is `Option (List String)`; `none` is the nil slice, so that
  the nil slice and the zero-length slice stay distinct, as they are for
  `v != nil` and for `reflect.DeepEqual`.
* A Go `map[string][]string` is an optional association list with distinct
  keys; `none` is the nil map.
* `*http.Request` is a pointer whose body is a stream that `ioutil.ReadAll`
  consumes, so every predicate returns the request it leaves behind next to its
  `(bool, error)` result.
* Functions of other packages (`jsoneq.Equal`, `url.ParseQuery`, the Unicode
  tables behind `strings.EqualFold`) are fields of `Lib`.
-/

namespace Flute

/-! ## Go values -/

/-- A Go `error` value: either created from a message, or built by
`fmt.Errorf("...%w", cause)` around a cause. -/
inductive GoError where
  | new (msg : String)
  | wrap (msg : String) (cause : GoError)
deriving DecidableEq, Repr

/-- A Go `[]string`; `none` is the nil slice. -/
abbrev Strings := Option (List String)

/-- The entries of a non-nil Go `map[string][]string`: keys are distinct. -/
structure StringsMap where
  entries : List (String × Strings)
  nodup : (entries.map Prod.fst).Nodup
deriving DecidableEq

/-- The map without entries, `map[string][]string{}`. -/
def StringsMap.empty : StringsMap := ⟨[], List.nodup_nil⟩

/-- The value stored under `k` in a list of entries, if any. -/
def lookupEntries (k : String) : List (String × Strings) → Option Strings
  | [] => none
  | kv :: rest => if kv.1 = k then some kv.2 else lookupEntries k rest

/-- The Go expression `v, ok := m[k]` on a possibly nil map: `none` is
`ok == false`. Indexing the nil map finds nothing. -/
def index (m : Option StringsMap) (k : String) : Option Strings :=
  match m with
  | none => none
  | some mm => lookupEntries k mm.entries

/-- Result of `reflect.DeepEqual` on two `[]string`: both nil or both non-nil, the same
length, and equal elements position by position. -/
def deepEqualStrings : Strings → Strings → Bool
  | none, none => true
  | some xs, some ys =>
    xs.length == ys.length && (List.zipWith (fun x y => decide (x = y)) xs ys).all id
  | _, _ => false

/-- Result of `reflect.DeepEqual` on two `map[string][]string`: both nil or both non-nil,
the same number of entries, and every key of the first is a key of the second
with a deep-equal value. -/
def deepEqualMap : Option StringsMap → Option StringsMap → Bool
  | none, none => true
  | some m1, some m2 =>
    m1.entries.length == m2.entries.length &&
      m1.entries.all (fun kv =>
        match lookupEntries kv.1 m2.entries with
        | none => false
        | some v2 => deepEqualStrings kv.2 v2)
  | _, _ => false

/-- Values a caller can store in an `interface{}` and hand to `jsoneq.Equal`. -/
inductive GoValue where
  | bytes (b : String)
  | bool (b : Bool)
  | int (n : Int)
  | string (s : String)
  | slice (xs : List GoValue)
  | map (kvs : List (String × GoValue))

/-- The `(bool, error)` pair a predicate returns; `none` is the nil error. -/
abbrev Verdict := Bool × Option GoError

/-- Functions of other packages that the matcher calls.

* `jsonEqual` is `jsoneq.Equal`.
* `parseQuery` is the map `url.ParseQuery` builds from a raw query; it is never nil.
* `foldOrbit sr tr` is the general case of `strings.EqualFold` for two distinct
  runes `sr < tr` that are not both ASCII: whether stepping `unicode.SimpleFold`
  from `sr` reaches `tr`. -/
structure Lib where
  jsonEqual : GoValue → GoValue → Verdict
  parseQuery : String → StringsMap
  foldOrbit : Char → Char → Bool

/-- The oracle contract that an error is never reported together with `true`:
`jsoneq.Equal` returns `false, err` on every failure. -/
def Lib.ErrorMeansFalse (lib : Lib) : Prop :=
  ∀ a b, (lib.jsonEqual a b).2 ≠ none → (lib.jsonEqual a b).1 = false

/-- The oracle contract on an empty request body: zero bytes are not a JSON
document, so `jsoneq.Equal` does not report equality for them. -/
def Lib.RejectsEmptyBody (lib : Lib) : Prop :=
  ∀ b, (lib.jsonEqual (GoValue.bytes "") b).1 = false

/-- Runes of `strings.EqualFold`: equal runes match; two ASCII runes match when
they are the upper and lower case of one letter; other pairs are left to the
Unicode fold orbit. At the end both strings must be exhausted. -/
def equalFoldRunes (lib : Lib) : List Char → List Char → Bool
  | [], [] => true
  | [], _ :: _ => false
  | _ :: _, [] => false
  | sr :: s, tr :: t =>
    if tr = sr then equalFoldRunes lib s t
    else
      let lo := if tr < sr then tr else sr
      let hi := if tr < sr then sr else tr
      if hi.toNat < 0x80 then
        if 'A'.toNat ≤ lo.toNat ∧ lo.toNat ≤ 'Z'.toNat ∧ hi.toNat = lo.toNat + 'a'.toNat - 'A'.toNat then
          equalFoldRunes lib s t
        else false
      else if lib.foldOrbit lo hi then equalFoldRunes lib s t
      else false

/-- Go `strings.EqualFold(s, t)`. -/
def EqualFold (lib : Lib) (s t : String) : Bool :=
  equalFoldRunes lib s.toList t.toList

/-! ## Requests -/

/-- An `io.ReadCloser` that is read once: `data` is what has not been read
yet, `err` is the error the reader reports instead of `io.EOF`, if any. -/
structure ReadCloser where
  data : String
  err : Option GoError := none
deriving DecidableEq, Repr

/-- Go `ioutil.ReadAll`: returns everything not yet read together with the reader's
error, and leaves the stream drained. -/
def ReadAll (r : ReadCloser) : (String × Option GoError) × ReadCloser :=
  ((r.data, r.err), { r with data := "" })

/-- The fields of `url.URL` the matcher looks at. -/
structure URL where
  Scheme : String := ""
  Host : String := ""
  Path : String := ""
  RawQuery : String := ""
deriving DecidableEq, Repr

/-- Go `(*url.URL).Query`: the parsed query parameters, never nil. -/
def URL.Query (lib : Lib) (u : URL) : Option StringsMap :=
  some (lib.parseQuery u.RawQuery)

/-- The fields of `http.Request` the matcher looks at. `Body` is `none` for a
nil body. -/
structure Request where
  Method : String := ""
  URL : URL := {}
  Header : Option StringsMap := none
  Body : Option ReadCloser := none
deriving DecidableEq

/-- Modelled from the spec: the declaration of the `Matcher` type is not part of
the sources at hand. Its fields are those that `matcher.go` reads and the tests
set: exact path, method, the three body fields, exact and subset header sets,
exact and subset query sets, and the caller's predicate. -/
structure Matcher where
  Path : String := ""
  Method : String := ""
  BodyString : String := ""
  BodyJSON : Option GoValue := none
  BodyJSONString : String := ""
  Header : Option StringsMap := none
  PartOfHeader : Option StringsMap := none
  Query : Option StringsMap := none
  PartOfQuery : Option StringsMap := none
  Match : Option (Request → Verdict × Request) := none

/-- Go `type matchFunc func(req *http.Request, matcher Matcher) (bool, error)`, with the
request left behind. -/
abbrev matchFunc := Request → Matcher → Verdict × Request

/-! ## The predicate library -/

/-- Source: `matchPath`. -/
def matchPath (req : Request) (matcher : Matcher) : Verdict × Request :=
  ((matcher.Path == "" || matcher.Path == req.URL.Path, none), req)

/-- Source: `matchMethod`. -/
def matchMethod (lib : Lib) (req : Request) (matcher : Matcher) : Verdict × Request :=
  ((matcher.Method == "" || EqualFold lib matcher.Method req.Method, none), req)

/-- Source: `matchHeader`. -/
def matchHeader (req : Request) (matcher : Matcher) : Verdict × Request :=
  ((matcher.Header.isNone || deepEqualMap matcher.Header req.Header, none), req)

/-- The loop `for k, v := range want` of `isMatchPartOfHeader` and
`isMatchPartOfQuery` over the entries of `want`, with `have` the request's map:
`false` as soon as a key is missing or a non-nil value list is not deep-equal. -/
def rangePartOf (have_ : Option StringsMap) : List (String × Strings) → Bool
  | [] => true
  | kv :: rest =>
    match index have_ kv.1 with
    | none => false
    | some a =>
      if kv.2.isSome && !deepEqualStrings a kv.2 then false
      else rangePartOf have_ rest

/-- The entries a `range` loop visits: none for the nil map. -/
def rangeEntries (m : Option StringsMap) : List (String × Strings) :=
  match m with
  | none => []
  | some mm => mm.entries

/-- Source: `isMatchPartOfHeader`. -/
def isMatchPartOfHeader (req : Request) (matcher : Matcher) : Verdict × Request :=
  ((rangePartOf req.Header (rangeEntries matcher.PartOfHeader), none), req)

/-- Source: `isMatchPartOfQuery`. -/
def isMatchPartOfQuery (lib : Lib) (req : Request) (matcher : Matcher) : Verdict × Request :=
  if matcher.PartOfQuery.isNone then ((true, none), req)
  else ((rangePartOf (req.URL.Query lib) (rangeEntries matcher.PartOfQuery), none), req)

/-- Source: `isMatchBodyString`. -/
def isMatchBodyString (req : Request) (matcher : Matcher) : Verdict × Request :=
  if matcher.BodyString == "" then ((true, none), req)
  else
    match req.Body with
    | none => ((false, none), req)
    | some body =>
      let r := ReadAll body
      let req1 := { req with Body := some r.2 }
      match r.1.2 with
      | some err => ((false, some (GoError.wrap "failed to read the request body: " err)), req1)
      | none => ((matcher.BodyString == r.1.1, none), req1)

/-- Source: `isMatchBodyJSONString`. -/
def isMatchBodyJSONString (lib : Lib) (req : Request) (matcher : Matcher) : Verdict × Request :=
  if matcher.BodyJSONString == "" then ((true, none), req)
  else
    match req.Body with
    | none => ((false, none), req)
    | some body =>
      let r := ReadAll body
      let req1 := { req with Body := some r.2 }
      match r.1.2 with
      | some err => ((false, some (GoError.wrap "failed to read the request body: " err)), req1)
      | none => (lib.jsonEqual (GoValue.bytes r.1.1) (GoValue.bytes matcher.BodyJSONString), req1)

/-- Source: `isMatchBodyJSON`. -/
def isMatchBodyJSON (lib : Lib) (req : Request) (matcher : Matcher) : Verdict × Request :=
  match matcher.BodyJSON with
  | none => ((true, none), req)
  | some doc =>
    match req.Body with
    | none => ((false, none), req)
    | some body =>
      let r := ReadAll body
      let req1 := { req with Body := some r.2 }
      match r.1.2 with
      | some err => ((false, some (GoError.wrap "failed to read the request body: " err)), req1)
      | none => (lib.jsonEqual (GoValue.bytes r.1.1) doc, req1)

/-! ## The matcher evaluator -/

/-- Source: the array `matchFuncs`. -/
def matchFuncs (lib : Lib) : List matchFunc :=
  [matchPath, matchMethod lib, isMatchBodyString, isMatchBodyJSON lib, isMatchBodyJSONString lib,
    isMatchPartOfHeader, matchHeader, isMatchPartOfQuery lib]

/-- The loop `for _, match := range matchFuncs` of `isMatch`: `some (f, err)` is the
early `return f, err`, `none` means the loop ran to its end. -/
def rangeMatchFuncs : List matchFunc → Request → Matcher → Option Verdict × Request
  | [], req, _ => (none, req)
  | f :: rest, req, matcher =>
    let r := f req matcher
    if r.1.2.isSome || !r.1.1 then (some r.1, r.2)
    else rangeMatchFuncs rest r.2 matcher

/-- Source: `isMatch`. -/
def isMatch (lib : Lib) (req : Request) (matcher : Matcher) : Verdict × Request :=
  match rangeMatchFuncs (matchFuncs lib) req matcher with
  | (some v, req1) => (v, req1)
  | (none, req1) =>
    if matcher.Query.isSome && !deepEqualMap matcher.Query (req1.URL.Query lib) then
      ((false, none), req1)
    else
      match matcher.Match with
      | some f =>
        let r := f req1
        if r.1.2.isSome || !r.1.1 then r
        else ((true, none), r.2)
      | none => ((true, none), req1)

/-! ## Reading the evaluator as a list of stages -/

/-- The exact-query block of `isMatch` read as a predicate of its own: it fails
with `false, nil` when `matcher.Query` is non-nil and not deep-equal to the
parsed query, and passes otherwise. -/
def matchQuery (lib : Lib) (req : Request) (matcher : Matcher) : Verdict × Request :=
  ((!(matcher.Query.isSome && !deepEqualMap matcher.Query (req.URL.Query lib)), none), req)

/-- The custom-predicate block of `isMatch` read as a predicate of its own: the
caller's `Match` when there is one, a pass otherwise. -/
def matchCustom (req : Request) (matcher : Matcher) : Verdict × Request :=
  match matcher.Match with
  | some f => f req
  | none => ((true, none), req)

/-- The nine built-in predicates in the order `isMatch` runs them. -/
def builtinFuncs (lib : Lib) : List matchFunc :=
  [matchPath, matchMethod lib, isMatchBodyString, isMatchBodyJSON lib, isMatchBodyJSONString lib,
    isMatchPartOfHeader, matchHeader, isMatchPartOfQuery lib, matchQuery lib]

/-- The ten predicates, built-in and custom, in the order `isMatch` runs them. -/
def stages (lib : Lib) : List matchFunc :=
  [matchPath, matchMethod lib, isMatchBodyString, isMatchBodyJSON lib, isMatchBodyJSONString lib,
    isMatchPartOfHeader, matchHeader, isMatchPartOfQuery lib, matchQuery lib, matchCustom]

/-- Short-circuit evaluation of a list of predicates: the result of the first
one that yields `false` or an error, and `true, nil` when all pass. -/
def runInOrder (fs : List matchFunc) (req : Request) (matcher : Matcher) : Verdict × Request :=
  match rangeMatchFuncs fs req matcher with
  | (some v, req1) => (v, req1)
  | (none, req1) => ((true, none), req1)

/-- A predicate result that stops `isMatch`: a non-nil error or `false`. -/
def Stops (v : Verdict) : Prop := v.2 ≠ none ∨ v.1 = false

/-- How many of the three body fields of a matcher are set. -/
def bodyFieldsSet (matcher : Matcher) : Nat :=
  (if matcher.BodyString = "" then 0 else 1) + (if matcher.BodyJSON.isSome then 1 else 0) +
    (if matcher.BodyJSONString = "" then 0 else 1)

/-! ## Services, routes and the transport -/

/-- The fields of `http.Response` that a canned response sets: the status code,
the body, and the request the response answers. -/
structure HTTPResponse where
  StatusCode : Nat := 0
  Body : String := ""
  Request : Option Request := none

/-- Modelled from the spec: the declaration of the `Response` type is not part of
the sources at hand. A base response skeleton plus an optional body string that
is installed into the base response before it is returned. -/
structure Response where
  Base : HTTPResponse := {}
  BodyString : String := ""

/-- Modelled from the spec: the declaration of the `Route` type is not part of
the sources at hand. An optional display name, a matcher that may be nil, and
a response template. -/
structure Route where
  Name : String := ""
  Matcher : Option Matcher := none
  Response : Response := {}

/-- Modelled from the spec: the declaration of the `Service` type is not part of
the sources at hand. An endpoint, scheme and host, and an ordered sequence of
routes. -/
structure Service where
  Endpoint : String := ""
  Routes : List Route := []

/-- Source: `isMatchService`. -/
def isMatchService (req : Request) (service : Service) : Bool :=
  req.URL.Scheme ++ "://" ++ req.URL.Host == service.Endpoint

/-- Modelled from the spec: the route scan of the dispatcher is not part of the
sources at hand. Section 4.3, step 2: the routes of the selected service are
scanned in order and the matcher evaluator is invoked for each; a route with a
nil matcher matches; the first route producing `true` wins; a predicate error
aborts the scan with that error; when no route matches the result is no route
and no error. The request is the one pointer throughout, so each evaluation
gets the request as the one before left it. -/
def scanRoutes (lib : Lib) : List Route → Request → (Option Route × Option GoError) × Request
  | [], req => ((none, none), req)
  | route :: rest, req =>
    match route.Matcher with
    | none => ((some route, none), req)
    | some matcher =>
      match (isMatch lib req matcher).1.2 with
      | some err => ((none, some err), (isMatch lib req matcher).2)
      | none =>
        if (isMatch lib req matcher).1.1 then ((some route, none), (isMatch lib req matcher).2)
        else scanRoutes lib rest (isMatch lib req matcher).2

/-- Modelled from the spec: the dispatcher is not part of the sources at hand.
Section 4.3: the services are scanned in order and the first whose endpoint
matches the request is selected; its routes are scanned; when no service
matches, or no route of the selected service does, the result is no route and
no error, and later services are not scanned. -/
def dispatch (lib : Lib) : List Service → Request → (Option Route × Option GoError) × Request
  | [], req => ((none, none), req)
  | service :: rest, req =>
    if isMatchService req service then scanRoutes lib service.Routes req
    else dispatch lib rest req

/-- A transport: from a request to a response or an error. -/
abbrev RoundTripper := Request → Option HTTPResponse × Option GoError

set_option linter.dupNamespace false in
/-- Modelled from the spec: the declaration of the `Transport` type is not part of
the sources at hand. The configured services and the optional inner transport
to fall back to. -/
structure Transport where
  Services : List Service := []
  Transport : Option RoundTripper := none

/-- The process-wide defaults the facade reads: the transport of the default
client, which may be nil, and the default transport. -/
structure Defaults where
  ClientTransport : Option RoundTripper := none
  DefaultTransport : RoundTripper

/-- Modelled from the spec: the fallback policy is not part of the sources at
hand. Section 4.4: the inner transport if one is configured, else the transport
of the default client if it is non-nil, else the default transport. -/
def fallbackTransport (env : Defaults) (t : Transport) : RoundTripper :=
  match t.Transport with
  | some inner => inner
  | none =>
    match env.ClientTransport with
    | some rt => rt
    | none => env.DefaultTransport

/-- Modelled from the spec: the synthesis of the response is not part of the
sources at hand. Section 4.4: a copy of the template's base response, with the
configured body string installed, if any, and the request attached. -/
def createHTTPResponse (req : Request) (resp : Response) : HTTPResponse :=
  { resp.Base with
    Body := if resp.BodyString = "" then resp.Base.Body else resp.BodyString
    Request := some req }

/-- Modelled from the spec: `RoundTrip` is not part of the sources at hand.
Section 4.4: on a match the canned response is returned with no error; on a
dispatch error the error is returned and there is no fallback; on no route the
request goes to the fallback transport. -/
def RoundTrip (lib : Lib) (env : Defaults) (t : Transport) (req : Request) :
    Option HTTPResponse × Option GoError :=
  match dispatch lib t.Services req with
  | ((some route, _), req1) => (some (createHTTPResponse req1 route.Response), none)
  | ((none, some err), _) => (none, some err)
  | ((none, none), req1) => fallbackTransport env t req1

/-! ## A reference library for concrete runs

The theorems below hold for every `Lib`. To run them on concrete requests a
small library is fixed here: queries without escapes are split at `&` and `=`,
and two JSON documents given as bytes are compared byte for byte, the empty
document being rejected with an error. -/

/-- The pieces of a list of characters between occurrences of `sep`. -/
def splitOnChar (sep : Char) : List Char → List (List Char)
  | [] => [[]]
  | c :: cs =>
    if c = sep then [] :: splitOnChar sep cs
    else
      match splitOnChar sep cs with
      | [] => [[c]]
      | w :: ws => (c :: w) :: ws

/-- The characters before and after the first `sep`. -/
def cutAtChar (sep : Char) : List Char → List Char × List Char
  | [] => ([], [])
  | c :: cs => if c = sep then ([], cs) else (c :: (cutAtChar sep cs).1, (cutAtChar sep cs).2)

/-- The `key=value` pairs of a raw query, in order; empty pieces are skipped. -/
def queryPairs (raw : String) : List (String × String) :=
  ((splitOnChar '&' raw.toList).filter (fun p => !p.isEmpty)).map
    (fun p => (String.mk (cutAtChar '=' p).1, String.mk (cutAtChar '=' p).2))

/-- The query map of a raw query without escapes: each key with its values in
order of appearance. -/
def plainParseQuery (raw : String) : StringsMap :=
  ⟨((queryPairs raw).map Prod.fst).dedup.map
      (fun k => (k, some (((queryPairs raw).filter (fun p => decide (p.1 = k))).map Prod.snd))),
    by simp [List.map_map, Function.comp_def]; exact List.nodup_dedup _⟩

/-- Byte-for-byte comparison of two documents given as bytes; an empty document
is an error, as is a value that is not given as bytes. -/
def plainJSONEqual : GoValue → GoValue → Verdict
  | GoValue.bytes x, GoValue.bytes y =>
    if x = "" ∨ y = "" then (false, some (GoError.new "unexpected end of JSON input"))
    else (decide (x = y), none)
  | _, _ => (false, some (GoError.new "unsupported value"))

/-- The reference library. -/
def refLib : Lib where
  jsonEqual := plainJSONEqual
  parseQuery := plainParseQuery
  foldOrbit := fun _ _ => false

/-! ## Concrete requests and matchers -/

/-- The request of the transport test: `POST http://example.com/users` with a
JSON body and an authorization header. -/
def postUsers : Request where
  Method := "POST"
  URL := { Scheme := "http", Host := "example.com", Path := "/users" }
  Header := some ⟨[("Authorization", some ["token XXXXX"])], by decide⟩
  Body := some { data := "\x7b\"name\": \"foo\", \"email\": \"foo@example.com\"\x7d" }

/-- A matcher for the request of the transport test: method, path and the body
as a JSON document. -/
def createUser : Matcher where
  Method := "POST"
  Path := "/users"
  BodyJSONString := "\x7b\"name\": \"foo\", \"email\": \"foo@example.com\"\x7d"

/-- The matcher of the transport test whose custom predicate fails with an error. -/
def failingCustom : Matcher where
  Match := some (fun req => ((false, some (GoError.new "failed to match")), req))

/-- A matcher for another path that also constrains the body. -/
def otherPath : Matcher where
  Path := "/groups"
  BodyString := "x"

/-- A request with method POST. -/
def postRequest : Request where
  Method := "POST"

/-- A request with method GET. -/
def getRequest : Request where
  Method := "GET"

/-- The request of the test with headers FOO and BAR. -/
def fooBarRequest : Request where
  Header := some ⟨[("FOO", some ["foo"]), ("BAR", some ["bar"])], by decide⟩

/-- The matcher of the test that wants exactly the header FOO. -/
def onlyFoo : Matcher where
  Header := some ⟨[("FOO", some ["foo"])], by decide⟩

/-- The request of the test with the header FOO. -/
def fooRequest : Request where
  Header := some ⟨[("FOO", some ["foo"])], by decide⟩

/-- A matcher that wants the header FOO to be present, with any values. -/
def anyFoo : Matcher where
  PartOfHeader := some ⟨[("FOO", none)], by decide⟩

/-- The request of the test without a query. -/
def noQueryRequest : Request where
  URL := {}

/-- The matcher of the test that wants the query parameter name, with any values. -/
def anyName : Matcher where
  PartOfQuery := some ⟨[("name", none)], by decide⟩

/-- A request whose body is a JSON object with the field a. -/
def jsonA : Request where
  Body := some { data := "\x7b\"a\":1\x7d" }

/-- A matcher that constrains the body both as a string and as a JSON document. -/
def stringAndJSON : Matcher where
  BodyString := "\x7b\"a\":1\x7d"
  BodyJSONString := "\x7b\"a\":1\x7d"

/-- What `isMatch` leaves of `jsonA`: the body has been read. -/
def jsonADrained : Request where
  Body := some { data := "" }

/-- The request of the service test: scheme http and host example.com. -/
def exampleCom : Request where
  URL := { Scheme := "http", Host := "example.com" }

/-- A request without a body. -/
def noBody : Request where
  Method := "POST"

/-- A matcher that constrains the body as a string. -/
def bodyFoo : Matcher where
  BodyString := "foo"

/-- The request of the test whose body is foo. -/
def fooBody : Request where
  Body := some { data := "foo" }

/-- The request of the test with the query parameters name and age. -/
def nameAndAge : Request where
  URL := { RawQuery := "name=foo&age=10" }

/-- The matcher of the test that wants exactly the query parameter name. -/
def onlyName : Matcher where
  Query := some ⟨[("name", some ["foo"])], by decide⟩

/-- A request whose body is there and empty. -/
def emptyBody : Request where
  Body := some { data := "" }

/-- A matcher that constrains the body as a JSON document given as a string. -/
def jsonObject : Matcher where
  BodyJSONString := "\x7b\x7d"

/-- A request whose body fails while it is read. -/
def brokenBody : Request where
  Body := some { data := "fo", err := some (GoError.new "unexpected EOF") }

/-- The matcher of the test that wants the header FOO with the value foo among
the headers. -/
def someFoo : Matcher where
  PartOfHeader := some ⟨[("FOO", some ["foo"])], by decide⟩

/-- A matcher that lists the header FOO with a zero-length value list that is
not nil. -/
def emptyFoo : Matcher where
  PartOfHeader := some ⟨[("FOO", some [])], by decide⟩

/-- A request that carries the header FOO with a zero-length value list. -/
def fooNoValues : Request where
  Header := some ⟨[("FOO", some [])], by decide⟩

/-- A request with the query parameter name. -/
def nameFoo : Request where
  URL := { RawQuery := "name=foo" }

/-- A matcher that lists the query parameter name with a zero-length value list
that is not nil. -/
def emptyName : Matcher where
  PartOfQuery := some ⟨[("name", some [])], by decide⟩

/-- The first service of the transport test, without routes. -/
def exampleOrgService : Service where
  Endpoint := "http://example.org"

/-- The first route of the transport test: method GET. -/
def getRoute : Route where
  Matcher := some { Method := "GET" }

/-- The second route of the transport test: POST /users, answered with status 201. -/
def createUserRoute : Route where
  Name := "create a user"
  Matcher := some { Method := "POST", Path := "/users" }
  Response :=
    { Base := { StatusCode := 201 }
      BodyString := "\x7b\"id\": 10, \"name\": \"foo\", \"email\": \"foo@example.com\"\x7d" }

/-- The second service of the transport test. -/
def exampleComService : Service where
  Endpoint := "http://example.com"
  Routes := [getRoute, createUserRoute]

/-- A route whose custom predicate fails with an error. -/
def failingRoute : Route where
  Matcher := some failingCustom

/-- A service whose first route fails with an error and whose second route
matches the request of the transport test. -/
def failingFirstService : Service where
  Endpoint := "http://example.com"
  Routes := [failingRoute, createUserRoute]

/-- A fallback transport that answers every request with status 401. -/
def unauthorized : RoundTripper := fun _ => (some { StatusCode := 401 }, none)

/-- The one service of the failing transport test. -/
def failingService : Service where
  Endpoint := "http://example.com"
  Routes := [failingRoute]

/-- A request that carries the header foo, in lower case. -/
def lowerFooRequest : Request where
  Header := some ⟨[("foo", some ["foo"])], by decide⟩

/-- A request with the query parameter Name, with a capital letter. -/
def capitalName : Request where
  URL := { RawQuery := "Name=foo" }

/-- A request whose method is foo, in lower case. -/
def fooMethod : Request where
  Method := "foo"

/-- A request to example.com whose body is y. -/
def bodyY : Request where
  Method := "POST"
  URL := { Scheme := "http", Host := "example.com" }
  Body := some { data := "y" }

/-- A route that wants the body x. -/
def routeX : Route where
  Matcher := some { BodyString := "x" }

/-- A route that wants the body y. -/
def routeY : Route where
  Matcher := some { BodyString := "y" }

/-- A service whose first route wants the body x and whose second route wants
the body y. -/
def bodyRoutesService : Service where
  Endpoint := "http://example.com"
  Routes := [routeX, routeY]

/-! ## Notions used in the proofs -/

/-- ASCII lower-casing on code points. -/
def lowerNat (n : Nat) : Nat := if 65 ≤ n ∧ n ≤ 90 then n + 32 else n

/-- The common shape of the three body predicates once their field is set: a
nil body is a non-match, a failed read is an error, and otherwise `cmp` decides
on what was read; the body is left drained. -/
def readBody (cmp : String → Verdict) (req : Request) : Verdict × Request :=
  match req.Body with
  | none => ((false, none), req)
  | some body =>
    match (ReadAll body).1.2 with
    | some err =>
      ((false, some (GoError.wrap "failed to read the request body: " err)),
        { req with Body := some (ReadAll body).2 })
    | none => (cmp (ReadAll body).1.1, { req with Body := some (ReadAll body).2 })

/-- A predicate that, for the matcher at hand, leaves the request as it is,
reports no error and does not depend on the body. -/
def Inert (f : matchFunc) (m : Matcher) : Prop :=
  ∀ req, (f req m).2 = req ∧ (f req m).1.2 = none ∧
    ∀ b, (f { req with Body := b } m).1 = (f req m).1

/-- A predicate that reads the body, never reports `true` next to an error and
never reports `true` for an empty body. -/
def ReadsStrictly (f : matchFunc) (m : Matcher) : Prop :=
  ∃ cmp : String → Verdict, (cmp "").1 = false ∧ (∀ s, (cmp s).2 ≠ none → (cmp s).1 = false) ∧
    ∀ req, f req m = readBody cmp req

/-- A predicate that, for the matcher at hand, reads the body and never reports
`true` for an empty body. -/
def ReadsBody (f : matchFunc) (m : Matcher) : Prop :=
  ∃ cmp : String → Verdict, (cmp "").1 = false ∧ ∀ req, f req m = readBody cmp req

/-- A predicate that, for the matcher at hand, never reports `true` next to an
error. -/
def Sound (f : matchFunc) (m : Matcher) : Prop :=
  ∀ req, (f req m).1.2 ≠ none → (f req m).1.1 = false

/-- A predicate that, for the matcher at hand, is inert or reads the body
strictly. -/
def Classified (f : matchFunc) (m : Matcher) : Prop := Inert f m ∨ ReadsStrictly f m

/-- Two outcomes of the loop that `isMatch` cannot tell apart by its boolean:
both ran to the end and left the same request, or both stopped on `false`. -/
def Agree (a b : Option Verdict × Request) : Prop :=
  (a.1 = none ∧ b.1 = none ∧ a.2 = b.2) ∨
    (∃ va vb, a.1 = some va ∧ b.1 = some vb ∧ va.1 = false ∧ vb.1 = false)

/-! ## Theorems -/

/-- Claim C1. For every request and every library, the matcher whose fields
are all at their zero value matches: `isMatch` returns `true, nil`, and the
request is left as it was. -/
theorem isMatch_zero_matcher (lib : Lib) (req : Request) :
    isMatch lib req {} = ((true, none), req) := by
  simp [isMatch, matchFuncs, rangeMatchFuncs, matchPath, matchMethod, isMatchBodyString,
    isMatchBodyJSON, isMatchBodyJSONString, isMatchPartOfHeader, matchHeader,
    isMatchPartOfQuery, rangePartOf, rangeEntries]

/-! ### The loop of `isMatch` -/

theorem stops_iff (v : Verdict) : (v.2.isSome || !v.1) = true ↔ Stops v := by
  obtain ⟨b, e⟩ := v
  cases b <;> cases e <;> simp [Stops]

theorem not_stops_iff (v : Verdict) : ¬ Stops v ↔ v = (true, none) := by
  obtain ⟨b, e⟩ := v
  cases b <;> cases e <;> simp [Stops]

theorem rangeMatchFuncs_cons_stop (f : matchFunc) (rest : List matchFunc) (req : Request)
    (m : Matcher) (h : Stops (f req m).1) :
    rangeMatchFuncs (f :: rest) req m = (some (f req m).1, (f req m).2) := by
  have h1 := (stops_iff _).2 h
  simp only [rangeMatchFuncs, h1, if_true]

theorem rangeMatchFuncs_cons_pass (f : matchFunc) (rest : List matchFunc) (req : Request)
    (m : Matcher) (h : (f req m).1 = (true, none)) :
    rangeMatchFuncs (f :: rest) req m = rangeMatchFuncs rest (f req m).2 m := by
  simp [rangeMatchFuncs, h]

theorem rangeMatchFuncs_append_none (pre post : List matchFunc) (req req1 : Request)
    (m : Matcher) (h : rangeMatchFuncs pre req m = (none, req1)) :
    rangeMatchFuncs (pre ++ post) req m = rangeMatchFuncs post req1 m := by
  induction pre generalizing req with
  | nil =>
    simp only [rangeMatchFuncs, Prod.mk.injEq, true_and] at h
    simp [h]
  | cons f rest ih =>
    simp only [rangeMatchFuncs] at h
    simp only [List.cons_append, rangeMatchFuncs]
    split_ifs at h with hs
    · simp at h
    · rw [if_neg hs]
      exact ih _ h

theorem rangeMatchFuncs_append_some (pre post : List matchFunc) (req req1 : Request)
    (m : Matcher) (v : Verdict) (h : rangeMatchFuncs pre req m = (some v, req1)) :
    rangeMatchFuncs (pre ++ post) req m = (some v, req1) := by
  induction pre generalizing req with
  | nil => simp [rangeMatchFuncs] at h
  | cons f rest ih =>
    simp only [rangeMatchFuncs] at h
    simp only [List.cons_append, rangeMatchFuncs]
    split_ifs at h with hs
    · rw [if_pos hs]
      exact h
    · rw [if_neg hs]
      exact ih _ h

/-- The result a stopped loop reports is a stopping one. -/
theorem rangeMatchFuncs_some_stops (fs : List matchFunc) (req req1 : Request) (m : Matcher)
    (v : Verdict) (h : rangeMatchFuncs fs req m = (some v, req1)) : Stops v := by
  induction fs generalizing req with
  | nil => simp [rangeMatchFuncs] at h
  | cons f rest ih =>
    simp only [rangeMatchFuncs] at h
    split_ifs at h with hs
    · simp only [Prod.mk.injEq, Option.some.injEq] at h
      rw [← h.1]
      exact (stops_iff _).1 hs
    · exact ih _ h

/-- A loop over predicates that agree on two matchers runs alike on both. -/
theorem rangeMatchFuncs_congr (fs : List matchFunc) (req : Request) (m1 m2 : Matcher)
    (h : ∀ f ∈ fs, ∀ r, f r m1 = f r m2) :
    rangeMatchFuncs fs req m1 = rangeMatchFuncs fs req m2 := by
  induction fs generalizing req with
  | nil => rfl
  | cons f rest ih =>
    simp only [rangeMatchFuncs]
    rw [h f (List.mem_cons_self _ _) req]
    split_ifs
    · rfl
    · exact ih _ (fun g hg r => h g (List.mem_cons_of_mem _ hg) r)

theorem stages_eq (lib : Lib) : stages lib = matchFuncs lib ++ [matchQuery lib, matchCustom] := rfl

theorem stages_eq_builtin (lib : Lib) : stages lib = builtinFuncs lib ++ [matchCustom] := rfl

/-- The evaluator is the short-circuit run of its ten stages. -/
theorem isMatch_eq_runInOrder (lib : Lib) (req : Request) (m : Matcher) :
    isMatch lib req m = runInOrder (stages lib) req m := by
  unfold isMatch runInOrder
  rcases hloop : rangeMatchFuncs (matchFuncs lib) req m with ⟨_ | v, req1⟩
  · rw [stages_eq, rangeMatchFuncs_append_none _ _ _ _ _ hloop]
    simp only [rangeMatchFuncs, matchQuery, matchCustom]
    cases hq : (m.Query.isSome && !deepEqualMap m.Query (req1.URL.Query lib))
    · cases hm : m.Match with
      | none => simp
      | some f =>
        rcases hf : f req1 with ⟨⟨b, e⟩, r2⟩
        cases b <;> cases e <;> simp [hf]
    · simp
  · rw [stages_eq, rangeMatchFuncs_append_some _ _ _ _ _ _ hloop]

/-- No built-in predicate looks at the custom predicate of the matcher. -/
theorem builtinFuncs_ignore_Match (lib : Lib) (m : Matcher)
    (g : Option (Request → Verdict × Request)) :
    ∀ f ∈ builtinFuncs lib, ∀ r, f r { m with Match := g } = f r m := by
  intro f hf r
  simp only [builtinFuncs, List.mem_cons, List.mem_singleton, List.not_mem_nil, or_false] at hf
  rcases hf with h | h | h | h | h | h | h | h | h <;> subst h <;> rfl

/-- Claim C5. `isMatch` is the short-circuit run of ten predicates in the order
path, method, body as string, body as JSON value, body as JSON string, header
subset, header exact, query subset, query exact, custom. Whenever the
predicates before some predicate `f` all pass, leaving the request as `req1`,
and `f` yields `false` or a non-nil error on `req1`, the result of `isMatch` is
the result of `f`, and the request is left exactly as `f` left it, whatever the
later predicates are. In particular a failing path or method leaves the request,
its body included, untouched, and when a built-in predicate stops the run the
result is the same for every custom predicate the matcher could carry. -/
theorem isMatch_order_and_short_circuit (lib : Lib) (req : Request) (m : Matcher) :
    stages lib = [matchPath, matchMethod lib, isMatchBodyString, isMatchBodyJSON lib,
      isMatchBodyJSONString lib, isMatchPartOfHeader, matchHeader, isMatchPartOfQuery lib,
      matchQuery lib, matchCustom] ∧
    isMatch lib req m = runInOrder (stages lib) req m ∧
    (∀ (pre post : List matchFunc) (f : matchFunc) (req1 : Request),
      stages lib = pre ++ f :: post →
      rangeMatchFuncs pre req m = (none, req1) →
      Stops (f req1 m).1 →
      isMatch lib req m = f req1 m) ∧
    (Stops (matchPath req m).1 → isMatch lib req m = ((false, none), req)) ∧
    ((matchPath req m).1 = (true, none) → Stops (matchMethod lib req m).1 →
      isMatch lib req m = ((false, none), req)) ∧
    (∀ (v : Verdict) (req1 : Request),
      rangeMatchFuncs (builtinFuncs lib) req m = (some v, req1) →
      ∀ g, isMatch lib req { m with Match := g } = (v, req1)) := by
  have key : ∀ (pre post : List matchFunc) (f : matchFunc) (req1 : Request),
      stages lib = pre ++ f :: post →
      rangeMatchFuncs pre req m = (none, req1) →
      Stops (f req1 m).1 →
      isMatch lib req m = f req1 m := by
    intro pre post f req1 hsplit hpre hstop
    rw [isMatch_eq_runInOrder, hsplit]
    unfold runInOrder
    rw [rangeMatchFuncs_append_none _ _ _ _ _ hpre, rangeMatchFuncs_cons_stop _ _ _ _ hstop]
  refine ⟨rfl, isMatch_eq_runInOrder lib req m, key, ?_, ?_, ?_⟩
  · intro hstop
    rw [key [] _ matchPath req rfl rfl hstop]
    simp only [matchPath, Stops, ne_eq, not_true_eq_false, false_or] at hstop ⊢
    rw [hstop]
  · intro hpath hstop
    have hpre : rangeMatchFuncs [matchPath] req m = (none, req) := by
      rw [rangeMatchFuncs_cons_pass _ _ _ _ hpath]
      rfl
    rw [key [matchPath] _ (matchMethod lib) req rfl hpre hstop]
    simp only [matchMethod, Stops, ne_eq, not_true_eq_false, false_or] at hstop ⊢
    rw [hstop]
  · intro v req1 hloop g
    have h1 : rangeMatchFuncs (builtinFuncs lib) req { m with Match := g } = (some v, req1) := by
      rw [rangeMatchFuncs_congr _ _ _ m (builtinFuncs_ignore_Match lib m g)]
      exact hloop
    rw [isMatch_eq_runInOrder, stages_eq_builtin]
    unfold runInOrder
    rw [rangeMatchFuncs_append_some _ _ _ _ _ _ h1]

/-- Claim C5 at a concrete input: the path predicate fails on the request of the
transport test, and `isMatch` returns `false, nil` with the body unread. -/
theorem isMatch_order_and_short_circuit_witness :
    Stops (matchPath postUsers otherPath).1 ∧
      isMatch refLib postUsers otherPath = ((false, none), postUsers) :=
  ⟨Or.inr (by decide),
    (isMatch_order_and_short_circuit refLib postUsers otherPath).2.2.2.1 (Or.inr (by decide))⟩

/-- Claim C6. When the matcher carries a custom predicate `f` and all nine
built-in predicates pass, leaving the request as `req1`, `isMatch` returns
exactly what `f req1` returns, the request it leaves included. In particular an
error of `f` comes back unchanged, so the result is not the plain non-match
`false, nil`. -/
theorem isMatch_returns_custom_verdict (lib : Lib) (req req1 : Request) (m : Matcher)
    (f : Request → Verdict × Request) (hf : m.Match = some f)
    (hpass : rangeMatchFuncs (builtinFuncs lib) req m = (none, req1)) :
    isMatch lib req m = f req1 ∧
    (∀ e, (f req1).1.2 = some e →
      (isMatch lib req m).1.2 = some e ∧ (isMatch lib req m).1 ≠ (false, none)) := by
  have h : isMatch lib req m = f req1 := by
    rw [isMatch_eq_runInOrder, stages_eq_builtin]
    unfold runInOrder
    rw [rangeMatchFuncs_append_none _ _ _ _ _ hpass]
    simp only [rangeMatchFuncs, matchCustom, hf]
    rcases hfr : f req1 with ⟨⟨b, e⟩, r2⟩
    cases b <;> cases e <;> simp
  refine ⟨h, ?_⟩
  intro e he
  rw [h]
  refine ⟨he, ?_⟩
  intro hcontra
  rw [hcontra] at he
  simp at he

/-- Claim C6 at a concrete input: the failing custom predicate of the transport
test makes `isMatch` return its error. -/
theorem isMatch_returns_custom_verdict_witness :
    isMatch refLib postUsers failingCustom =
      ((false, some (GoError.new "failed to match")), postUsers) :=
  (isMatch_returns_custom_verdict refLib postUsers postUsers failingCustom
    (fun req => ((false, some (GoError.new "failed to match")), req)) rfl (by decide)).1

/-! ### Letter case in `strings.EqualFold` -/

theorem char_toNat_ofNat_small (n : Nat) (h : n < 0xd800) : (Char.ofNat n).toNat = n := by
  have hv : n.isValidChar := Or.inl h
  simp only [Char.ofNat, hv, Char.ofNatAux, Char.toNat, dite_true]
  show (BitVec.ofNatLt n _).toNat = n
  rfl

theorem char_eq_of_toNat_eq (c d : Char) (h : c.toNat = d.toNat) : c = d := by
  rw [← Char.ofNat_toNat c, ← Char.ofNat_toNat d, h]

theorem toNat_toLower (c : Char) (h : c.toNat < 128) : c.toLower.toNat = lowerNat c.toNat := by
  unfold Char.toLower lowerNat
  simp only [ge_iff_le]
  split_ifs with h1
  · exact char_toNat_ofNat_small _ (by omega)
  · rfl

theorem toLower_eq_iff (c d : Char) (hc : c.toNat < 128) (hd : d.toNat < 128) :
    c.toLower = d.toLower ↔ lowerNat c.toNat = lowerNat d.toNat := by
  constructor
  · intro h
    rw [← toNat_toLower c hc, ← toNat_toLower d hd, h]
  · intro h
    apply char_eq_of_toNat_eq
    rw [toNat_toLower c hc, toNat_toLower d hd, h]

theorem char_lt_iff_toNat (c d : Char) : c < d ↔ c.toNat < d.toNat := by
  rw [Char.lt_def]
  rfl

theorem equalFoldRunes_cons_ascii (lib : Lib) (sr tr : Char) (s t : List Char)
    (hs : sr.toNat < 128) (ht : tr.toNat < 128) :
    equalFoldRunes lib (sr :: s) (tr :: t) =
      (decide (sr.toLower = tr.toLower) && equalFoldRunes lib s t) := by
  rw [equalFoldRunes]
  by_cases heq : tr = sr
  · subst heq
    simp
  · have hne : tr.toNat ≠ sr.toNat := fun h => heq (char_eq_of_toNat_eq _ _ h)
    rw [if_neg heq]
    have hlow : sr.toLower = tr.toLower ↔ lowerNat sr.toNat = lowerNat tr.toNat :=
      toLower_eq_iff sr tr hs ht
    simp only [char_lt_iff_toNat]
    by_cases hlt : tr.toNat < sr.toNat
    · simp only [if_pos hlt, hs, if_true]
      by_cases hl : lowerNat sr.toNat = lowerNat tr.toNat
      · have hc : 'A'.toNat ≤ tr.toNat ∧ tr.toNat ≤ 'Z'.toNat ∧
            sr.toNat = tr.toNat + 'a'.toNat - 'A'.toNat := by
          have e1 : 'A'.toNat = 65 := rfl
          have e2 : 'Z'.toNat = 90 := rfl
          have e3 : 'a'.toNat = 97 := rfl
          rw [e1, e2, e3]
          unfold lowerNat at hl
          split_ifs at hl <;> omega
        rw [if_pos hc, decide_eq_true (hlow.2 hl), Bool.true_and]
      · have hc : ¬ ('A'.toNat ≤ tr.toNat ∧ tr.toNat ≤ 'Z'.toNat ∧
            sr.toNat = tr.toNat + 'a'.toNat - 'A'.toNat) := by
          have e1 : 'A'.toNat = 65 := rfl
          have e2 : 'Z'.toNat = 90 := rfl
          have e3 : 'a'.toNat = 97 := rfl
          rw [e1, e2, e3]
          unfold lowerNat at hl
          split_ifs at hl <;> omega
        rw [if_neg hc, decide_eq_false (fun h => hl (hlow.1 h)), Bool.false_and]
    · simp only [if_neg hlt, ht, if_true]
      by_cases hl : lowerNat sr.toNat = lowerNat tr.toNat
      · have hc : 'A'.toNat ≤ sr.toNat ∧ sr.toNat ≤ 'Z'.toNat ∧
            tr.toNat = sr.toNat + 'a'.toNat - 'A'.toNat := by
          have e1 : 'A'.toNat = 65 := rfl
          have e2 : 'Z'.toNat = 90 := rfl
          have e3 : 'a'.toNat = 97 := rfl
          rw [e1, e2, e3]
          unfold lowerNat at hl
          split_ifs at hl <;> omega
        rw [if_pos hc, decide_eq_true (hlow.2 hl), Bool.true_and]
      · have hc : ¬ ('A'.toNat ≤ sr.toNat ∧ sr.toNat ≤ 'Z'.toNat ∧
            tr.toNat = sr.toNat + 'a'.toNat - 'A'.toNat) := by
          have e1 : 'A'.toNat = 65 := rfl
          have e2 : 'Z'.toNat = 90 := rfl
          have e3 : 'a'.toNat = 97 := rfl
          rw [e1, e2, e3]
          unfold lowerNat at hl
          split_ifs at hl <;> omega
        rw [if_neg hc, decide_eq_false (fun h => hl (hlow.1 h)), Bool.false_and]

/-- On ASCII strings `EqualFold` is equality of the lower-cased strings. -/
theorem equalFoldRunes_ascii (lib : Lib) (s t : List Char)
    (hs : ∀ c ∈ s, c.toNat < 128) (ht : ∀ c ∈ t, c.toNat < 128) :
    equalFoldRunes lib s t = true ↔ s.map Char.toLower = t.map Char.toLower := by
  induction s generalizing t with
  | nil =>
    cases t with
    | nil => simp [equalFoldRunes]
    | cons tr t => simp [equalFoldRunes]
  | cons sr s ih =>
    cases t with
    | nil => simp [equalFoldRunes]
    | cons tr t =>
      rw [equalFoldRunes_cons_ascii lib sr tr s t (hs sr (List.mem_cons_self _ _))
        (ht tr (List.mem_cons_self _ _))]
      simp only [Bool.and_eq_true, decide_eq_true_eq, List.map_cons, List.cons.injEq]
      rw [ih t (fun c hc => hs c (List.mem_cons_of_mem _ hc))
        (fun c hc => ht c (List.mem_cons_of_mem _ hc))]

/-! ### Maps and `reflect.DeepEqual` -/

theorem zipWith_all_iff (xs ys : List String) (h : xs.length = ys.length) :
    (List.zipWith (fun x y => decide (x = y)) xs ys).all id = true ↔ xs = ys := by
  induction xs generalizing ys with
  | nil =>
    cases ys with
    | nil => simp
    | cons y ys => simp at h
  | cons x xs ih =>
    cases ys with
    | nil => simp at h
    | cons y ys =>
      simp only [List.length_cons, Nat.add_right_cancel_iff] at h
      simp only [List.zipWith_cons_cons, List.all_cons, id_eq, Bool.and_eq_true,
        decide_eq_true_eq, List.cons.injEq]
      rw [ih ys h]

/-- The model of `reflect.DeepEqual` on `[]string` holds exactly of equal
slices, the nil slice being different from the zero-length one. -/
theorem deepEqualStrings_iff (a b : Strings) : deepEqualStrings a b = true ↔ a = b := by
  cases a with
  | none => cases b <;> simp [deepEqualStrings]
  | some xs =>
    cases b with
    | none => simp [deepEqualStrings]
    | some ys =>
      simp only [deepEqualStrings, Bool.and_eq_true, beq_iff_eq, Option.some.injEq]
      constructor
      · rintro ⟨hl, hz⟩
        exact (zipWith_all_iff xs ys hl).1 hz
      · intro h
        subst h
        exact ⟨rfl, (zipWith_all_iff xs xs rfl).2 rfl⟩

theorem lookupEntries_eq_none_iff (k : String) (l : List (String × Strings)) :
    lookupEntries k l = none ↔ k ∉ l.map Prod.fst := by
  induction l with
  | nil => simp [lookupEntries]
  | cons kv rest ih =>
    simp only [lookupEntries, List.map_cons, List.mem_cons, not_or]
    by_cases h : kv.1 = k
    · simp [h]
    · rw [if_neg h, ih]
      constructor
      · intro h1
        exact ⟨fun h2 => h h2.symm, h1⟩
      · intro h1
        exact h1.2

theorem mem_of_lookupEntries (k : String) (v : Strings) (l : List (String × Strings))
    (h : lookupEntries k l = some v) : (k, v) ∈ l := by
  induction l with
  | nil => simp [lookupEntries] at h
  | cons kv rest ih =>
    simp only [lookupEntries] at h
    by_cases hk : kv.1 = k
    · rw [if_pos hk] at h
      simp only [Option.some.injEq] at h
      rw [← hk, ← h]
      exact List.mem_cons_self _ _
    · rw [if_neg hk] at h
      exact List.mem_cons_of_mem _ (ih h)

theorem lookupEntries_of_mem (k : String) (v : Strings) (l : List (String × Strings))
    (hnd : (l.map Prod.fst).Nodup) (h : (k, v) ∈ l) : lookupEntries k l = some v := by
  induction l with
  | nil => simp at h
  | cons kv rest ih =>
    simp only [List.map_cons, List.nodup_cons] at hnd
    simp only [lookupEntries]
    rcases List.mem_cons.1 h with h1 | h1
    · subst h1
      simp
    · have hk : kv.1 ≠ k := by
        intro hk
        apply hnd.1
        rw [hk]
        exact List.mem_map_of_mem Prod.fst h1
      rw [if_neg hk]
      exact ih hnd.2 h1

/-- Indexing a non-nil map finds `v` under `k` exactly when `(k, v)` is one of
its entries. -/
theorem index_some_iff (mm : StringsMap) (k : String) (v : Strings) :
    index (some mm) k = some v ↔ (k, v) ∈ mm.entries :=
  ⟨mem_of_lookupEntries k v mm.entries, lookupEntries_of_mem k v mm.entries mm.nodup⟩

theorem index_none (k : String) : index none k = none := rfl

/-- The loop over the wanted entries succeeds exactly when every wanted key is
found and every non-nil wanted value list is the value list found. -/
theorem rangePartOf_iff (have_ : Option StringsMap) (l : List (String × Strings)) :
    rangePartOf have_ l = true ↔
      ∀ kv ∈ l, ∃ a, index have_ kv.1 = some a ∧ ∀ ys, kv.2 = some ys → a = some ys := by
  induction l with
  | nil => simp [rangePartOf]
  | cons kv rest ih =>
    simp only [rangePartOf, List.mem_cons, forall_eq_or_imp]
    cases hidx : index have_ kv.1 with
    | none => simp
    | some a =>
      dsimp only
      by_cases hv : (kv.2.isSome && !deepEqualStrings a kv.2) = true
      · rw [if_pos hv]
        simp only [Bool.and_eq_true, Bool.not_eq_true', Option.isSome_iff_exists] at hv
        obtain ⟨⟨ys, hys⟩, hne⟩ := hv
        simp only [Bool.false_eq_true, Option.some.injEq, exists_eq_left', false_iff, not_and]
        intro hall
        have := hall ys hys
        rw [this, hys] at hne
        have ht := (deepEqualStrings_iff (some ys) (some ys)).2 rfl
        rw [ht] at hne
        exact absurd hne (by simp)
      · rw [if_neg hv, ih]
        simp only [Option.some.injEq, exists_eq_left', iff_and_self]
        intro _ ys hys
        simp only [Bool.and_eq_true, Bool.not_eq_true', not_and, Bool.not_eq_false] at hv
        have h1 := hv (by rw [hys]; rfl)
        rw [deepEqualStrings_iff] at h1
        rw [h1, hys]

/-- Go visits the entries of a map in no fixed order; the result of the loop
does not depend on the order. -/
theorem rangePartOf_perm (have_ : Option StringsMap) (l1 l2 : List (String × Strings))
    (h : l1.Perm l2) : rangePartOf have_ l1 = rangePartOf have_ l2 := by
  rw [Bool.eq_iff_iff, rangePartOf_iff, rangePartOf_iff]
  constructor
  · intro hall kv hkv
    exact hall kv (h.mem_iff.2 hkv)
  · intro hall kv hkv
    exact hall kv (h.mem_iff.1 hkv)

/-- The model of `reflect.DeepEqual` on maps holds exactly when both maps are nil
or both are non-nil and every key finds the same in both. -/
theorem deepEqualMap_iff (a b : Option StringsMap) :
    deepEqualMap a b = true ↔ (a.isSome = b.isSome ∧ ∀ k, index b k = index a k) := by
  cases a with
  | none =>
    cases b with
    | none => simp [deepEqualMap]
    | some m2 => simp [deepEqualMap]
  | some m1 =>
    cases b with
    | none => simp [deepEqualMap]
    | some m2 =>
      simp only [deepEqualMap, Bool.and_eq_true, beq_iff_eq, List.all_eq_true, Option.isSome_some,
        true_and, index]
      constructor
      · rintro ⟨hlen, hall⟩
        have hfind : ∀ k v, (k, v) ∈ m1.entries → lookupEntries k m2.entries = some v := by
          intro k v hmem
          have := hall (k, v) hmem
          simp only at this
          cases hl : lookupEntries k m2.entries with
          | none => rw [hl] at this; simp at this
          | some v2 =>
            rw [hl] at this
            simp only at this
            rw [(deepEqualStrings_iff v v2).1 this]
        have hsub : m1.entries.map Prod.fst ⊆ m2.entries.map Prod.fst := by
          intro k hk
          obtain ⟨⟨k1, v⟩, hmem, hk1⟩ := List.mem_map.1 hk
          simp only at hk1
          subst hk1
          by_contra hnot
          have := (lookupEntries_eq_none_iff k1 m2.entries).2 hnot
          rw [hfind k1 v hmem] at this
          simp at this
        have hperm : (m1.entries.map Prod.fst).Perm (m2.entries.map Prod.fst) :=
          (List.subperm_of_subset m1.nodup hsub).perm_of_length_le (by simp [hlen])
        intro k
        cases hl : lookupEntries k m1.entries with
        | none =>
          have h1 := (lookupEntries_eq_none_iff k m1.entries).1 hl
          exact (lookupEntries_eq_none_iff k m2.entries).2 (fun h2 => h1 (hperm.mem_iff.2 h2))
        | some v => exact hfind k v (mem_of_lookupEntries k v _ hl)
      · intro hidx
        constructor
        · have hperm : (m1.entries.map Prod.fst).Perm (m2.entries.map Prod.fst) := by
            rw [List.perm_ext_iff_of_nodup m1.nodup m2.nodup]
            intro k
            rw [← not_iff_not, ← lookupEntries_eq_none_iff, ← lookupEntries_eq_none_iff, hidx k]
          simpa using hperm.length_eq
        · rintro ⟨k, v⟩ hmem
          simp only
          rw [hidx k, lookupEntries_of_mem k v _ m1.nodup hmem]
          exact (deepEqualStrings_iff v v).2 rfl

/-- Claim C7. `matchPath` and `matchMethod` return a nil error and leave the
request as it was. `matchPath` returns `true` exactly when the matcher's path is
empty or equal to the request URL's path. `matchMethod` returns `true` exactly
when the matcher's method is empty or `strings.EqualFold` holds of it and the
request's method; on ASCII strings `strings.EqualFold` is equality of the
lower-cased strings. The matcher method post matches the request method POST,
and POST does not match GET. -/
theorem matchPath_matchMethod_spec (lib : Lib) (req : Request) (m : Matcher) :
    (matchPath req m).1.2 = none ∧ (matchMethod lib req m).1.2 = none ∧
    (matchPath req m).2 = req ∧ (matchMethod lib req m).2 = req ∧
    ((matchPath req m).1.1 = true ↔ m.Path = "" ∨ m.Path = req.URL.Path) ∧
    ((matchMethod lib req m).1.1 = true ↔
      m.Method = "" ∨ EqualFold lib m.Method req.Method = true) ∧
    ((∀ c ∈ m.Method.toList, c.toNat < 128) → (∀ c ∈ req.Method.toList, c.toNat < 128) →
      (EqualFold lib m.Method req.Method = true ↔
        m.Method.toList.map Char.toLower = req.Method.toList.map Char.toLower)) ∧
    (matchMethod lib postRequest { Method := "post" }).1 = (true, none) ∧
    (matchMethod lib getRequest { Method := "POST" }).1 = (false, none) := by
  refine ⟨rfl, rfl, rfl, rfl, ?_, ?_, ?_, rfl, rfl⟩
  · simp [matchPath]
  · simp [matchMethod]
  · intro hm hr
    exact equalFoldRunes_ascii lib _ _ hm hr

/-- Claim C7 at a concrete input: the ASCII methods Post and POST are equal up to
letter case, and the matcher matches. -/
theorem matchPath_matchMethod_spec_witness :
    EqualFold refLib "Post" postRequest.Method = true ∧
      (matchMethod refLib postRequest { Method := "Post" }).1.1 = true :=
  ⟨((matchPath_matchMethod_spec refLib postRequest { Method := "Post" }).2.2.2.2.2.2.1
      (by decide) (by decide)).2 (by decide),
    ((matchPath_matchMethod_spec refLib postRequest { Method := "Post" }).2.2.2.2.2.1).2
      (Or.inr (by decide))⟩

/-- Claim C8. `matchHeader` returns a nil error and leaves the request as it
was. It returns `true` exactly when the matcher's header set is nil or
`reflect.DeepEqual` holds of it and the request's header set; the latter means
that the request's header set is non-nil too and that every key finds the same
in both: the same keys, each with the same value list. In particular, when the
matcher's header set is non-nil, a request carrying a key that is not listed in
it is a non-match `false, nil`. -/
theorem matchHeader_spec (req : Request) (m : Matcher) :
    (matchHeader req m).1.2 = none ∧ (matchHeader req m).2 = req ∧
    ((matchHeader req m).1 = (true, none) ↔
      m.Header = none ∨ deepEqualMap m.Header req.Header = true) ∧
    (deepEqualMap m.Header req.Header = true ↔
      (m.Header.isSome = req.Header.isSome ∧ ∀ k, index req.Header k = index m.Header k)) ∧
    (∀ k, m.Header ≠ none → index req.Header k ≠ none → index m.Header k = none →
      (matchHeader req m).1 = (false, none)) := by
  refine ⟨rfl, rfl, ?_, deepEqualMap_iff _ _, ?_⟩
  · cases h : m.Header <;> simp [matchHeader, h]
  · intro k hne hreq hm
    have hnot : deepEqualMap m.Header req.Header ≠ true := by
      intro hde
      have := ((deepEqualMap_iff _ _).1 hde).2 k
      rw [hm] at this
      exact hreq this
    cases h : m.Header with
    | none => exact absurd h hne
    | some mm =>
      rw [h] at hnot
      simp [matchHeader, h, hnot]

/-- Claim C8 at a concrete input: the request of the test carries the header BAR
that the matcher does not list, and is a non-match. -/
theorem matchHeader_spec_witness :
    (matchHeader fooBarRequest onlyFoo).1 = (false, none) :=
  (matchHeader_spec fooBarRequest onlyFoo).2.2.2.2 "BAR" (by decide) (by decide) (by decide)

/-- The range loop over a map succeeds exactly when every key the map lists is
found and every non-nil value list it gives is the value list found. -/
theorem rangePartOf_entries_iff (have_ want : Option StringsMap) :
    rangePartOf have_ (rangeEntries want) = true ↔
      ∀ k v, index want k = some v →
        ∃ a, index have_ k = some a ∧ ∀ ys, v = some ys → a = some ys := by
  rw [rangePartOf_iff]
  cases want with
  | none => simp [rangeEntries, index]
  | some mm =>
    simp only [rangeEntries]
    constructor
    · intro h k v hidx
      exact h (k, v) ((index_some_iff mm k v).1 hidx)
    · rintro h ⟨k, v⟩ hmem
      exact h k v ((index_some_iff mm k v).2 hmem)

/-- Claim C9. `isMatchPartOfHeader` returns a nil error and leaves the request as
it was. It returns `true` exactly when every key listed in the matcher's
`PartOfHeader` is present in the request's headers and, for each listed key
whose value list is non-nil, the request's value list for that key is that same
list, element by element in the same order. A matcher that lists one key with
a nil value list is satisfied exactly by the presence of the key. -/
theorem isMatchPartOfHeader_spec (req : Request) (m : Matcher) :
    (isMatchPartOfHeader req m).1.2 = none ∧ (isMatchPartOfHeader req m).2 = req ∧
    ((isMatchPartOfHeader req m).1 = (true, none) ↔
      ∀ k v, index m.PartOfHeader k = some v →
        ∃ a, index req.Header k = some a ∧ ∀ ys, v = some ys → a = some ys) ∧
    (∀ k h, m.PartOfHeader = some ⟨[(k, none)], h⟩ →
      ((isMatchPartOfHeader req m).1 = (true, none) ↔ index req.Header k ≠ none)) := by
  have main : (isMatchPartOfHeader req m).1 = (true, none) ↔
      ∀ k v, index m.PartOfHeader k = some v →
        ∃ a, index req.Header k = some a ∧ ∀ ys, v = some ys → a = some ys := by
    rw [← rangePartOf_entries_iff]
    simp [isMatchPartOfHeader]
  refine ⟨rfl, rfl, main, ?_⟩
  intro k h hm
  rw [main, hm]
  constructor
  · intro hall
    obtain ⟨a, ha, _⟩ := hall k none (by simp [index, lookupEntries])
    rw [ha]
    simp
  · intro hne k1 v hidx
    simp only [index, lookupEntries] at hidx
    by_cases hk : k = k1
    · subst hk
      simp only [if_true, Option.some.injEq] at hidx
      subst hidx
      cases ha : index req.Header k with
      | none => exact absurd ha hne
      | some a => exact ⟨a, rfl, by simp⟩
    · rw [if_neg hk] at hidx
      simp at hidx

/-- Claim C9 at a concrete input: a matcher listing FOO with a nil value list
matches the request that carries FOO. -/
theorem isMatchPartOfHeader_spec_witness :
    (isMatchPartOfHeader fooRequest anyFoo).1 = (true, none) :=
  ((isMatchPartOfHeader_spec fooRequest anyFoo).2.2.2 "FOO" (by decide) rfl).2 (by decide)

/-- Claim C10. `isMatchPartOfQuery` returns a nil error and leaves the request as
it was. It returns `true` exactly when the matcher's `PartOfQuery` is nil, or
every key listed in it is present in the parsed query of the request and, for
each listed key whose value list is non-nil, the parsed value list for that key
is that same list in the same order. A listed key that is absent from the
parsed query makes the request a non-match `false, nil`. -/
theorem isMatchPartOfQuery_spec (lib : Lib) (req : Request) (m : Matcher) :
    (isMatchPartOfQuery lib req m).1.2 = none ∧ (isMatchPartOfQuery lib req m).2 = req ∧
    ((isMatchPartOfQuery lib req m).1 = (true, none) ↔
      m.PartOfQuery = none ∨
        ∀ k v, index m.PartOfQuery k = some v →
          ∃ a, index (req.URL.Query lib) k = some a ∧ ∀ ys, v = some ys → a = some ys) ∧
    (∀ k v, index m.PartOfQuery k = some v → index (req.URL.Query lib) k = none →
      (isMatchPartOfQuery lib req m).1 = (false, none)) := by
  have main : (isMatchPartOfQuery lib req m).1 = (true, none) ↔
      ∀ k v, index m.PartOfQuery k = some v →
        ∃ a, index (req.URL.Query lib) k = some a ∧ ∀ ys, v = some ys → a = some ys := by
    rw [← rangePartOf_entries_iff]
    cases h : m.PartOfQuery with
    | none => simp [isMatchPartOfQuery, h, rangeEntries, rangePartOf]
    | some mm => simp [isMatchPartOfQuery, h]
  have herr : (isMatchPartOfQuery lib req m).1.2 = none := by
    unfold isMatchPartOfQuery
    split_ifs <;> rfl
  have hreq : (isMatchPartOfQuery lib req m).2 = req := by
    unfold isMatchPartOfQuery
    split_ifs <;> rfl
  refine ⟨herr, hreq, ?_, ?_⟩
  · rw [main]
    constructor
    · intro h
      exact Or.inr h
    · rintro (h | h)
      · intro k v hidx
        rw [h] at hidx
        simp [index] at hidx
      · exact h
  · intro k v hidx hnone
    have hnot : (isMatchPartOfQuery lib req m).1 ≠ (true, none) := by
      intro ht
      obtain ⟨a, ha, _⟩ := main.1 ht k v hidx
      rw [hnone] at ha
      simp at ha
    rcases hres : (isMatchPartOfQuery lib req m).1 with ⟨b, e⟩
    rw [hres] at hnot herr
    simp only at herr
    subst herr
    cases b
    · rfl
    · exact absurd rfl hnot

/-- Claim C10 at a concrete input: the key name listed with a nil value list
against an empty query is a non-match. -/
theorem isMatchPartOfQuery_spec_witness :
    (isMatchPartOfQuery refLib noQueryRequest anyName).1 = (false, none) :=
  (isMatchPartOfQuery_spec refLib noQueryRequest anyName).2.2.2 "name" none (by decide)
    (by decide)

theorem matchPath_inert (m : Matcher) : Inert matchPath m :=
  fun _ => ⟨rfl, rfl, fun _ => rfl⟩

theorem matchMethod_inert (lib : Lib) (m : Matcher) : Inert (matchMethod lib) m :=
  fun _ => ⟨rfl, rfl, fun _ => rfl⟩

theorem matchHeader_inert (m : Matcher) : Inert matchHeader m :=
  fun _ => ⟨rfl, rfl, fun _ => rfl⟩

theorem isMatchPartOfHeader_inert (m : Matcher) : Inert isMatchPartOfHeader m :=
  fun _ => ⟨rfl, rfl, fun _ => rfl⟩

theorem matchQuery_inert (lib : Lib) (m : Matcher) : Inert (matchQuery lib) m :=
  fun _ => ⟨rfl, rfl, fun _ => rfl⟩

theorem isMatchPartOfQuery_inert (lib : Lib) (m : Matcher) : Inert (isMatchPartOfQuery lib) m := by
  intro req
  unfold isMatchPartOfQuery
  split_ifs
  · exact ⟨rfl, rfl, fun _ => rfl⟩
  · exact ⟨rfl, rfl, fun _ => rfl⟩

theorem isMatchBodyString_unset (m : Matcher) (h : m.BodyString = "") :
    Inert isMatchBodyString m := by
  intro req
  simp [isMatchBodyString, h]

theorem isMatchBodyJSON_unset (lib : Lib) (m : Matcher) (h : m.BodyJSON = none) :
    Inert (isMatchBodyJSON lib) m := by
  intro req
  simp [isMatchBodyJSON, h]

theorem isMatchBodyJSONString_unset (lib : Lib) (m : Matcher) (h : m.BodyJSONString = "") :
    Inert (isMatchBodyJSONString lib) m := by
  intro req
  simp [isMatchBodyJSONString, h]

theorem isMatchBodyString_set (req : Request) (m : Matcher) (h : m.BodyString ≠ "") :
    isMatchBodyString req m = readBody (fun b => (m.BodyString == b, none)) req := by
  cases hB : req.Body with
  | none => simp [isMatchBodyString, readBody, h, hB]
  | some body =>
    cases hb : (ReadAll body).1.2 <;> simp [isMatchBodyString, readBody, h, hB, hb]

theorem isMatchBodyJSON_set (lib : Lib) (req : Request) (m : Matcher) (doc : GoValue)
    (h : m.BodyJSON = some doc) :
    isMatchBodyJSON lib req m = readBody (fun b => lib.jsonEqual (GoValue.bytes b) doc) req := by
  cases hB : req.Body with
  | none => simp [isMatchBodyJSON, readBody, h, hB]
  | some body =>
    cases hb : (ReadAll body).1.2 <;> simp [isMatchBodyJSON, readBody, h, hB, hb]

theorem isMatchBodyJSONString_set (lib : Lib) (req : Request) (m : Matcher)
    (h : m.BodyJSONString ≠ "") :
    isMatchBodyJSONString lib req m =
      readBody (fun b => lib.jsonEqual (GoValue.bytes b) (GoValue.bytes m.BodyJSONString)) req := by
  cases hB : req.Body with
  | none => simp [isMatchBodyJSONString, readBody, h, hB]
  | some body =>
    cases hb : (ReadAll body).1.2 <;> simp [isMatchBodyJSONString, readBody, h, hB, hb]

/-- A loop over inert predicates leaves the request as it is. -/
theorem rangeMatchFuncs_inert_request (fs : List matchFunc) (req : Request) (m : Matcher)
    (h : ∀ f ∈ fs, Inert f m) : (rangeMatchFuncs fs req m).2 = req := by
  induction fs with
  | nil => rfl
  | cons f rest ih =>
    have hf := h f (List.mem_cons_self _ _) req
    simp only [rangeMatchFuncs]
    split_ifs
    · exact hf.1
    · rw [hf.1]
      exact ih (fun g hg => h g (List.mem_cons_of_mem _ hg))

/-- A loop over inert predicates runs to its end exactly when each of them
passes on the request. -/
theorem rangeMatchFuncs_inert_none (fs : List matchFunc) (req : Request) (m : Matcher)
    (h : ∀ f ∈ fs, Inert f m) :
    (rangeMatchFuncs fs req m).1 = none ↔ ∀ f ∈ fs, (f req m).1 = (true, none) := by
  induction fs with
  | nil => simp [rangeMatchFuncs]
  | cons f rest ih =>
    have hf := h f (List.mem_cons_self _ _) req
    have ih1 := ih (fun g hg => h g (List.mem_cons_of_mem _ hg))
    simp only [rangeMatchFuncs, List.mem_cons, forall_eq_or_imp]
    by_cases hs : Stops (f req m).1
    · rw [if_pos ((stops_iff _).2 hs)]
      have : (f req m).1 ≠ (true, none) := fun hp => (not_stops_iff _).2 hp hs
      constructor
      · intro hc
        simp at hc
      · intro hc
        exact absurd hc.1 this
    · rw [if_neg (fun hc => hs ((stops_iff _).1 hc)), hf.1, ih1]
      exact ⟨fun hc => ⟨(not_stops_iff _).1 hs, hc⟩, fun hc => hc.2⟩

/-- An inert predicate gives the same result whatever the body is. -/
theorem inert_body (f : matchFunc) (m : Matcher) (h : Inert f m) (req : Request)
    (b : Option ReadCloser) : (f { req with Body := b } m).1 = (f req m).1 :=
  (h req).2.2 b

/-- A loop with one arbitrary predicate among inert ones runs to its end exactly
when each predicate passes on the request it was given at the start, as long as
the arbitrary predicate changes nothing but the body. -/
theorem rangeMatchFuncs_one_reader (pre post : List matchFunc) (g : matchFunc) (req : Request)
    (m : Matcher) (hpre : ∀ f ∈ pre, Inert f m) (hpost : ∀ f ∈ post, Inert f m)
    (hg : ∀ r, ∃ b, (g r m).2 = { r with Body := b }) :
    (rangeMatchFuncs (pre ++ g :: post) req m).1 = none ↔
      ∀ f ∈ pre ++ g :: post, (f req m).1 = (true, none) := by
  have hreq := rangeMatchFuncs_inert_request pre req m hpre
  have hnone := rangeMatchFuncs_inert_none pre req m hpre
  simp only [List.mem_append, List.mem_cons]
  rcases hloop : rangeMatchFuncs pre req m with ⟨_ | v, r1⟩
  · rw [hloop] at hreq hnone
    simp only at hreq
    subst hreq
    have hall := hnone.1 rfl
    rw [rangeMatchFuncs_append_none _ _ _ _ _ hloop]
    by_cases hs : Stops (g r1 m).1
    · rw [rangeMatchFuncs_cons_stop _ _ _ _ hs]
      have : (g r1 m).1 ≠ (true, none) := fun hp => (not_stops_iff _).2 hp hs
      simp only [reduceCtorEq, false_iff, not_forall]
      exact ⟨g, Or.inr (Or.inl rfl), this⟩
    · have hp := (not_stops_iff _).1 hs
      rw [rangeMatchFuncs_cons_pass _ _ _ _ hp]
      obtain ⟨b, hb⟩ := hg r1
      rw [hb, rangeMatchFuncs_inert_none post _ m hpost]
      constructor
      · intro h f hf
        rcases hf with hf | hf | hf
        · exact hall f hf
        · rw [hf]; exact hp
        · rw [← inert_body f m (hpost f hf) r1 b]
          exact h f hf
      · intro h f hf
        rw [inert_body f m (hpost f hf) r1 b]
        exact h f (Or.inr (Or.inr hf))
  · rw [hloop] at hnone
    rw [rangeMatchFuncs_append_some _ _ _ _ _ _ hloop]
    simp only [reduceCtorEq, false_iff]
    intro hall
    exact absurd (hnone.2 (fun f hf => hall f (Or.inl hf))) (by simp)

theorem readBody_request (cmp : String → Verdict) (req : Request) :
    ∃ b, (readBody cmp req).2 = { req with Body := b } := by
  obtain ⟨method, url, header, body⟩ := req
  cases body with
  | none => exact ⟨none, rfl⟩
  | some body =>
    cases he : (ReadAll body).1.2 with
    | none => exact ⟨some (ReadAll body).2, by simp [readBody, he]⟩
    | some e => exact ⟨some (ReadAll body).2, by simp [readBody, he]⟩

theorem inert_sound (f : matchFunc) (m : Matcher) (h : Inert f m) : Sound f m :=
  fun req herr => absurd (h req).2.1 herr

theorem readBody_sound (cmp : String → Verdict)
    (hcmp : ∀ s, (cmp s).2 ≠ none → (cmp s).1 = false) (req : Request) :
    (readBody cmp req).1.2 ≠ none → (readBody cmp req).1.1 = false := by
  obtain ⟨method, url, header, body⟩ := req
  cases body with
  | none => intro _; rfl
  | some body =>
    cases he : (ReadAll body).1.2 with
    | none =>
      simp only [readBody, he]
      exact hcmp _
    | some e =>
      simp only [readBody, he]
      intro _
      trivial

theorem builtinFuncs_sound (lib : Lib) (herr : lib.ErrorMeansFalse) (m : Matcher) :
    ∀ f ∈ builtinFuncs lib, Sound f m := by
  intro f hf
  simp only [builtinFuncs, List.mem_cons, List.mem_singleton, List.not_mem_nil, or_false] at hf
  rcases hf with h | h | h | h | h | h | h | h | h <;> subst h
  · exact inert_sound _ _ (matchPath_inert m)
  · exact inert_sound _ _ (matchMethod_inert lib m)
  · by_cases hs : m.BodyString = ""
    · exact inert_sound _ _ (isMatchBodyString_unset m hs)
    · intro req
      rw [isMatchBodyString_set req m hs]
      exact readBody_sound _ (fun s hne => absurd rfl hne) req
  · cases hj : m.BodyJSON with
    | none => exact inert_sound _ _ (isMatchBodyJSON_unset lib m hj)
    | some doc =>
      intro req
      rw [isMatchBodyJSON_set lib req m doc hj]
      exact readBody_sound _ (fun s => herr _ _) req
  · by_cases hs : m.BodyJSONString = ""
    · exact inert_sound _ _ (isMatchBodyJSONString_unset lib m hs)
    · intro req
      rw [isMatchBodyJSONString_set lib req m hs]
      exact readBody_sound _ (fun s => herr _ _) req
  · exact inert_sound _ _ (isMatchPartOfHeader_inert m)
  · exact inert_sound _ _ (matchHeader_inert m)
  · exact inert_sound _ _ (isMatchPartOfQuery_inert lib m)
  · exact inert_sound _ _ (matchQuery_inert lib m)

theorem sound_bool_iff (f : matchFunc) (m : Matcher) (h : Sound f m) (req : Request) :
    (f req m).1.1 = true ↔ (f req m).1 = (true, none) := by
  have hs := h req
  rcases hv : (f req m).1 with ⟨b, e⟩
  rw [hv] at hs
  cases b <;> cases e <;> simp_all

/-- The result a stopped loop reports is the result of one of its predicates. -/
theorem rangeMatchFuncs_some_mem (fs : List matchFunc) (req req1 : Request) (m : Matcher)
    (v : Verdict) (h : rangeMatchFuncs fs req m = (some v, req1)) :
    ∃ f ∈ fs, ∃ r, v = (f r m).1 := by
  induction fs generalizing req with
  | nil => simp [rangeMatchFuncs] at h
  | cons f rest ih =>
    simp only [rangeMatchFuncs] at h
    split_ifs at h with hs
    · simp only [Prod.mk.injEq, Option.some.injEq] at h
      exact ⟨f, List.mem_cons_self _ _, req, h.1.symm⟩
    · obtain ⟨g, hg, r, hr⟩ := ih _ h
      exact ⟨g, List.mem_cons_of_mem _ hg, r, hr⟩

/-- Without a custom predicate the evaluator is the run of the built-in
predicates. -/
theorem isMatch_no_custom (lib : Lib) (req : Request) (m : Matcher) (h : m.Match = none) :
    isMatch lib req m = runInOrder (builtinFuncs lib) req m := by
  rw [isMatch_eq_runInOrder, stages_eq_builtin]
  unfold runInOrder
  rcases hloop : rangeMatchFuncs (builtinFuncs lib) req m with ⟨_ | v, r1⟩
  · rw [rangeMatchFuncs_append_none _ _ _ _ _ hloop]
    simp [rangeMatchFuncs, matchCustom, h]
  · rw [rangeMatchFuncs_append_some _ _ _ _ _ _ hloop]

theorem runInOrder_pass_iff (fs : List matchFunc) (req : Request) (m : Matcher) :
    (runInOrder fs req m).1 = (true, none) ↔ (rangeMatchFuncs fs req m).1 = none := by
  unfold runInOrder
  rcases hloop : rangeMatchFuncs fs req m with ⟨_ | v, r1⟩
  · simp
  · have hs := rangeMatchFuncs_some_stops fs req r1 m v hloop
    have : v ≠ (true, none) := fun hp => (not_stops_iff _).2 hp hs
    simp [this]

theorem runInOrder_bool_iff (fs : List matchFunc) (req : Request) (m : Matcher)
    (hsound : ∀ f ∈ fs, Sound f m) :
    (runInOrder fs req m).1.1 = true ↔ (runInOrder fs req m).1 = (true, none) := by
  constructor
  · intro hb
    unfold runInOrder at hb ⊢
    rcases hloop : rangeMatchFuncs fs req m with ⟨_ | v, r1⟩
    · rfl
    · rw [hloop] at hb
      simp only at hb ⊢
      obtain ⟨f, hf, r, hr⟩ := rangeMatchFuncs_some_mem fs req r1 m v hloop
      rw [hr] at hb ⊢
      exact (sound_bool_iff f m (hsound f hf) r).1 hb
  · intro h
    rw [h]

/-- With at most one body field set, the loop over the built-in predicates
runs to its end exactly when each of them passes on the request as given. -/
theorem builtinFuncs_none_iff (lib : Lib) (req : Request) (m : Matcher)
    (hbody : bodyFieldsSet m ≤ 1) :
    (rangeMatchFuncs (builtinFuncs lib) req m).1 = none ↔
      ∀ f ∈ builtinFuncs lib, (f req m).1 = (true, none) := by
  have hP := matchPath_inert m
  have hM := matchMethod_inert lib m
  have hPH := isMatchPartOfHeader_inert m
  have hH := matchHeader_inert m
  have hPQ := isMatchPartOfQuery_inert lib m
  have hQ := matchQuery_inert lib m
  by_cases hs : m.BodyString = ""
  · have hS := isMatchBodyString_unset m hs
    cases hj : m.BodyJSON with
    | none =>
      have hJ := isMatchBodyJSON_unset lib m hj
      have hsplit : builtinFuncs lib = [matchPath, matchMethod lib, isMatchBodyString,
          isMatchBodyJSON lib] ++ isMatchBodyJSONString lib ::
          [isMatchPartOfHeader, matchHeader, isMatchPartOfQuery lib, matchQuery lib] := rfl
      rw [hsplit]
      apply rangeMatchFuncs_one_reader
      · intro f hf
        simp only [List.mem_cons, List.mem_singleton, List.not_mem_nil, or_false] at hf
        rcases hf with h | h | h | h <;> subst h <;> assumption
      · intro f hf
        simp only [List.mem_cons, List.mem_singleton, List.not_mem_nil, or_false] at hf
        rcases hf with h | h | h | h <;> subst h <;> assumption
      · intro r
        by_cases hjs : m.BodyJSONString = ""
        · exact ⟨r.Body, by rw [(isMatchBodyJSONString_unset lib m hjs r).1]⟩
        · rw [isMatchBodyJSONString_set lib r m hjs]
          exact readBody_request _ r
    | some doc =>
      have hjs : m.BodyJSONString = "" := by
        by_contra hne
        simp [bodyFieldsSet, hs, hj, hne] at hbody
      have hJS := isMatchBodyJSONString_unset lib m hjs
      have hsplit : builtinFuncs lib = [matchPath, matchMethod lib, isMatchBodyString] ++
          isMatchBodyJSON lib :: [isMatchBodyJSONString lib,
          isMatchPartOfHeader, matchHeader, isMatchPartOfQuery lib, matchQuery lib] := rfl
      rw [hsplit]
      apply rangeMatchFuncs_one_reader
      · intro f hf
        simp only [List.mem_cons, List.mem_singleton, List.not_mem_nil, or_false] at hf
        rcases hf with h | h | h <;> subst h <;> assumption
      · intro f hf
        simp only [List.mem_cons, List.mem_singleton, List.not_mem_nil, or_false] at hf
        rcases hf with h | h | h | h | h <;> subst h <;> assumption
      · intro r
        rw [isMatchBodyJSON_set lib r m doc hj]
        exact readBody_request _ r
  · have hj : m.BodyJSON = none := by
      cases hj : m.BodyJSON with
      | none => rfl
      | some doc =>
        simp only [bodyFieldsSet, hs, hj, if_false, Option.isSome_some, if_true] at hbody
        omega
    have hjs : m.BodyJSONString = "" := by
      by_contra hne
      simp [bodyFieldsSet, hs, hj, hne] at hbody
    have hJ := isMatchBodyJSON_unset lib m hj
    have hJS := isMatchBodyJSONString_unset lib m hjs
    have hsplit : builtinFuncs lib = [matchPath, matchMethod lib] ++
        isMatchBodyString :: [isMatchBodyJSON lib, isMatchBodyJSONString lib,
        isMatchPartOfHeader, matchHeader, isMatchPartOfQuery lib, matchQuery lib] := rfl
    rw [hsplit]
    apply rangeMatchFuncs_one_reader
    · intro f hf
      simp only [List.mem_cons, List.mem_singleton, List.not_mem_nil, or_false] at hf
      rcases hf with h | h <;> subst h <;> assumption
    · intro f hf
      simp only [List.mem_cons, List.mem_singleton, List.not_mem_nil, or_false] at hf
      rcases hf with h | h | h | h | h | h <;> subst h <;> assumption
    · intro r
      rw [isMatchBodyString_set r m hs]
      exact readBody_request _ r

theorem refLib_errorMeansFalse : refLib.ErrorMeansFalse := by
  intro a b
  cases a <;> cases b <;> simp [refLib, plainJSONEqual]
  split_ifs <;> simp

theorem refLib_rejectsEmptyBody : refLib.RejectsEmptyBody := by
  intro b
  cases b <;> simp [refLib, plainJSONEqual]

/-- Claim C2. For a matcher without a custom predicate and with at most one of
the three body fields set, `isMatch` returns `true, nil` exactly when each of
the nine built-in predicates, run on its own on the request as given, returns
`true, nil`. When moreover the JSON oracle never reports `true` next to an
error, as `jsoneq.Equal` does not, the boolean that `isMatch` returns is `true`
exactly when the boolean of each built-in predicate, run on its own, is. -/
theorem isMatch_iff_conditions (lib : Lib) (req : Request) (m : Matcher)
    (hcustom : m.Match = none) (hbody : bodyFieldsSet m ≤ 1) :
    ((isMatch lib req m).1 = (true, none) ↔
      (matchPath req m).1 = (true, none) ∧ (matchMethod lib req m).1 = (true, none) ∧
      (isMatchBodyString req m).1 = (true, none) ∧ (isMatchBodyJSON lib req m).1 = (true, none) ∧
      (isMatchBodyJSONString lib req m).1 = (true, none) ∧
      (isMatchPartOfHeader req m).1 = (true, none) ∧ (matchHeader req m).1 = (true, none) ∧
      (isMatchPartOfQuery lib req m).1 = (true, none) ∧ (matchQuery lib req m).1 = (true, none)) ∧
    (lib.ErrorMeansFalse →
      ((isMatch lib req m).1.1 = true ↔
        (matchPath req m).1.1 = true ∧ (matchMethod lib req m).1.1 = true ∧
        (isMatchBodyString req m).1.1 = true ∧ (isMatchBodyJSON lib req m).1.1 = true ∧
        (isMatchBodyJSONString lib req m).1.1 = true ∧
        (isMatchPartOfHeader req m).1.1 = true ∧ (matchHeader req m).1.1 = true ∧
        (isMatchPartOfQuery lib req m).1.1 = true ∧ (matchQuery lib req m).1.1 = true)) := by
  have hpass : (isMatch lib req m).1 = (true, none) ↔
      ∀ f ∈ builtinFuncs lib, (f req m).1 = (true, none) := by
    rw [isMatch_no_custom lib req m hcustom, runInOrder_pass_iff,
      builtinFuncs_none_iff lib req m hbody]
  constructor
  · rw [hpass]
    simp [builtinFuncs]
  · intro herr
    have hsound := builtinFuncs_sound lib herr m
    have hbool : (isMatch lib req m).1.1 = true ↔ (isMatch lib req m).1 = (true, none) := by
      rw [isMatch_no_custom lib req m hcustom]
      exact runInOrder_bool_iff _ req m hsound
    rw [hbool, hpass]
    have hall : (∀ f ∈ builtinFuncs lib, (f req m).1 = (true, none)) ↔
        ∀ f ∈ builtinFuncs lib, (f req m).1.1 = true := by
      constructor
      · intro h f hf
        exact (sound_bool_iff f m (hsound f hf) req).2 (h f hf)
      · intro h f hf
        exact (sound_bool_iff f m (hsound f hf) req).1 (h f hf)
    rw [hall]
    simp [builtinFuncs]

/-- Claim C2 at a concrete input: the request of the transport test meets the
method, path and body conditions of the matcher, the other conditions are left
open, and `isMatch` returns `true`. -/
theorem isMatch_iff_conditions_witness :
    (isMatch refLib postUsers createUser).1.1 = true :=
  ((isMatch_iff_conditions refLib postUsers createUser rfl (by decide)).2
    refLib_errorMeansFalse).2
    ⟨by decide, by decide, by decide, by decide, by decide, by decide, by decide, by decide,
      by decide⟩

/-- Claim C3, on the code. The request body and both body fields of the matcher
are the same JSON object. Each body predicate run alone on the fresh request
sees the body: the string predicate returns `true, nil`, and the JSON string
predicate returns what the oracle says of the body and the document. Inside
`isMatch` the string predicate drains the body, and the JSON string predicate
asks the oracle about the empty content: `isMatch` returns `true, nil` only if
the oracle says `true, nil` of the empty content, and with the reference
library it returns the error of the empty document. -/
theorem isMatch_second_body_predicate_sees_empty (lib : Lib) :
    (isMatchBodyString jsonA stringAndJSON).1 = (true, none) ∧
    (isMatchBodyJSONString lib jsonA stringAndJSON).1 =
      lib.jsonEqual (GoValue.bytes "\x7b\"a\":1\x7d") (GoValue.bytes "\x7b\"a\":1\x7d") ∧
    ((isMatch lib jsonA stringAndJSON).1 = (true, none) ↔
      lib.jsonEqual (GoValue.bytes "") (GoValue.bytes "\x7b\"a\":1\x7d") = (true, none)) ∧
    isMatch refLib jsonA stringAndJSON =
      ((false, some (GoError.new "unexpected end of JSON input")), jsonADrained) := by
  refine ⟨by decide, rfl, ?_, by decide⟩
  have h1 : rangeMatchFuncs [matchPath, matchMethod lib, isMatchBodyString, isMatchBodyJSON lib]
      jsonA stringAndJSON = (none, jsonADrained) := rfl
  have h2 : isMatchBodyJSONString lib jsonADrained stringAndJSON =
      (lib.jsonEqual (GoValue.bytes "") (GoValue.bytes "\x7b\"a\":1\x7d"), jsonADrained) := rfl
  have hsplit : stages lib = [matchPath, matchMethod lib, isMatchBodyString, isMatchBodyJSON lib]
      ++ isMatchBodyJSONString lib :: [isMatchPartOfHeader, matchHeader, isMatchPartOfQuery lib,
        matchQuery lib, matchCustom] := rfl
  rw [isMatch_eq_runInOrder, hsplit]
  unfold runInOrder
  rw [rangeMatchFuncs_append_none _ _ _ _ _ h1]
  by_cases hs : Stops (lib.jsonEqual (GoValue.bytes "") (GoValue.bytes "\x7b\"a\":1\x7d"))
  · have hs1 : Stops (isMatchBodyJSONString lib jsonADrained stringAndJSON).1 := by
      rw [h2]; exact hs
    rw [rangeMatchFuncs_cons_stop _ _ _ _ hs1, h2]
  · have hp := (not_stops_iff _).1 hs
    have hp1 : (isMatchBodyJSONString lib jsonADrained stringAndJSON).1 = (true, none) := by
      rw [h2]; exact hp
    rw [rangeMatchFuncs_cons_pass _ _ _ _ hp1, h2, hp]
    simp only [iff_true]
    rfl

theorem agree_symm {a b : Option Verdict × Request} (h : Agree a b) : Agree b a := by
  rcases h with ⟨h1, h2, h3⟩ | ⟨va, vb, h1, h2, h3, h4⟩
  · exact Or.inl ⟨h2, h1, h3.symm⟩
  · exact Or.inr ⟨vb, va, h2, h1, h4, h3⟩

theorem agree_trans {a b c : Option Verdict × Request} (h1 : Agree a b) (h2 : Agree b c) :
    Agree a c := by
  rcases h1 with ⟨a1, b1, e1⟩ | ⟨va, vb, a1, b1, fa, fb⟩
  · rcases h2 with ⟨b2, c2, e2⟩ | ⟨vb2, vc, b2, c2, fb2, fc⟩
    · exact Or.inl ⟨a1, c2, e1.trans e2⟩
    · rw [b1] at b2
      simp at b2
  · rcases h2 with ⟨b2, c2, e2⟩ | ⟨vb2, vc, b2, c2, fb2, fc⟩
    · rw [b1] at b2
      simp at b2
    · exact Or.inr ⟨va, vc, a1, c2, fa, fc⟩

theorem classified_stop_false (f : matchFunc) (m : Matcher) (h : Classified f m)
    (req : Request) (hs : Stops (f req m).1) : (f req m).1.1 = false := by
  rcases h with h | ⟨cmp, _, hcmp, hf⟩
  · rcases hs with hs | hs
    · exact absurd (h req).2.1 hs
    · exact hs
  · rcases hs with hs | hs
    · rw [hf req] at hs ⊢
      exact readBody_sound cmp hcmp req hs
    · exact hs

theorem classified_only_body (f : matchFunc) (m : Matcher) (h : Classified f m)
    (req : Request) : ∃ b, (f req m).2 = { req with Body := b } := by
  rcases h with h | ⟨cmp, _, _, hf⟩
  · exact ⟨req.Body, by rw [(h req).1]⟩
  · rw [hf req]
    exact readBody_request cmp req

/-- A loop over classified predicates that stops, stops on `false`. -/
theorem rangeMatchFuncs_some_false (fs : List matchFunc) (req req1 : Request) (m : Matcher)
    (v : Verdict) (hc : ∀ f ∈ fs, Classified f m)
    (h : rangeMatchFuncs fs req m = (some v, req1)) : v.1 = false := by
  induction fs generalizing req with
  | nil => simp [rangeMatchFuncs] at h
  | cons f rest ih =>
    simp only [rangeMatchFuncs] at h
    split_ifs at h with hs
    · simp only [Prod.mk.injEq, Option.some.injEq] at h
      rw [← h.1]
      exact classified_stop_false f m (hc f (List.mem_cons_self _ _)) req ((stops_iff _).1 hs)
    · exact ih _ (fun g hg => hc g (List.mem_cons_of_mem _ hg)) h

theorem agree_refl (fs : List matchFunc) (req : Request) (m : Matcher)
    (hc : ∀ f ∈ fs, Classified f m) :
    Agree (rangeMatchFuncs fs req m) (rangeMatchFuncs fs req m) := by
  rcases hloop : rangeMatchFuncs fs req m with ⟨_ | v, r1⟩
  · exact Or.inl ⟨rfl, rfl, rfl⟩
  · have hv := rangeMatchFuncs_some_false fs req r1 m v hc hloop
    exact Or.inr ⟨v, v, rfl, rfl, hv, hv⟩

/-- An inert predicate can change places with a classified neighbour. -/
theorem swap_inert (x y : matchFunc) (l : List matchFunc) (req : Request) (m : Matcher)
    (hx : Inert x m) (hy : Classified y m) (hl : ∀ f ∈ l, Classified f m) :
    Agree (rangeMatchFuncs (y :: x :: l) req m) (rangeMatchFuncs (x :: y :: l) req m) := by
  obtain ⟨b, hb⟩ := classified_only_body y m hy req
  have hxb : (x (y req m).2 m).1 = (x req m).1 := by
    rw [hb]
    exact inert_body x m hx req b
  have hxr : (x (y req m).2 m).2 = (y req m).2 := (hx _).1
  have hxr0 : (x req m).2 = req := (hx _).1
  by_cases hsy : Stops (y req m).1
  · have fy := classified_stop_false y m hy req hsy
    rw [rangeMatchFuncs_cons_stop y _ _ _ hsy]
    by_cases hsx : Stops (x req m).1
    · have fx := classified_stop_false x m (Or.inl hx) req hsx
      rw [rangeMatchFuncs_cons_stop x _ _ _ hsx]
      exact Or.inr ⟨_, _, rfl, rfl, fy, fx⟩
    · rw [rangeMatchFuncs_cons_pass x _ _ _ ((not_stops_iff _).1 hsx), hxr0,
        rangeMatchFuncs_cons_stop y _ _ _ hsy]
      exact Or.inr ⟨_, _, rfl, rfl, fy, fy⟩
  · rw [rangeMatchFuncs_cons_pass y _ _ _ ((not_stops_iff _).1 hsy)]
    by_cases hsx : Stops (x req m).1
    · have fx := classified_stop_false x m (Or.inl hx) req hsx
      have hsx1 : Stops (x (y req m).2 m).1 := by rw [hxb]; exact hsx
      rw [rangeMatchFuncs_cons_stop x _ _ _ hsx1, rangeMatchFuncs_cons_stop x _ _ _ hsx]
      refine Or.inr ⟨_, _, rfl, rfl, ?_, fx⟩
      rw [hxb]
      exact fx
    · have hpx1 : (x (y req m).2 m).1 = (true, none) := by
        rw [hxb]; exact (not_stops_iff _).1 hsx
      rw [rangeMatchFuncs_cons_pass x _ _ _ hpx1, hxr,
        rangeMatchFuncs_cons_pass x _ _ _ ((not_stops_iff _).1 hsx), hxr0,
        rangeMatchFuncs_cons_pass y _ _ _ ((not_stops_iff _).1 hsy)]
      exact agree_refl l _ m hl

/-- Two predicates that read the body strictly never both pass: the second one
finds the body drained. -/
theorem two_readers_stop (x y : matchFunc) (l : List matchFunc) (req : Request) (m : Matcher)
    (hx : ReadsStrictly x m) (hy : ReadsStrictly y m) :
    ∃ v r, rangeMatchFuncs (x :: y :: l) req m = (some v, r) ∧ v.1 = false := by
  by_cases hsx : Stops (x req m).1
  · exact ⟨_, _, rangeMatchFuncs_cons_stop x _ _ _ hsx,
      classified_stop_false x m (Or.inr hx) req hsx⟩
  · have hpx := (not_stops_iff _).1 hsx
    rw [rangeMatchFuncs_cons_pass x _ _ _ hpx]
    obtain ⟨cx, _, _, hfx⟩ := hx
    obtain ⟨cy, hy0, hycmp, hfy⟩ := hy
    have hy1 : (y (x req m).2 m).1.1 = false := by
      rw [hfx req] at hpx ⊢
      rw [hfy]
      obtain ⟨method, url, header, body⟩ := req
      cases body with
      | none => simp [readBody] at hpx
      | some body =>
        cases he : (ReadAll body).1.2 with
        | some e => simp [readBody, he] at hpx
        | none =>
          have he1 : body.err = none := he
          simp [readBody, he, ReadAll, he1, hy0]
    have hsy : Stops (y (x req m).2 m).1 := Or.inr hy1
    exact ⟨_, _, rangeMatchFuncs_cons_stop y _ _ _ hsy, hy1⟩

/-- Two classified neighbours can change places. -/
theorem swap_classified (x y : matchFunc) (l : List matchFunc) (req : Request) (m : Matcher)
    (hx : Classified x m) (hy : Classified y m) (hl : ∀ f ∈ l, Classified f m) :
    Agree (rangeMatchFuncs (y :: x :: l) req m) (rangeMatchFuncs (x :: y :: l) req m) := by
  rcases hx with hx | hx
  · exact swap_inert x y l req m hx hy hl
  · rcases hy with hy | hy
    · exact agree_symm (swap_inert y x l req m hy (Or.inr hx) hl)
    · obtain ⟨v1, r1, e1, f1⟩ := two_readers_stop y x l req m hy hx
      obtain ⟨v2, r2, e2, f2⟩ := two_readers_stop x y l req m hx hy
      rw [e1, e2]
      exact Or.inr ⟨v1, v2, rfl, rfl, f1, f2⟩

/-- Loops over two orderings of the same classified predicates agree. -/
theorem perm_agree (m : Matcher) (l1 l2 : List matchFunc) (hp : l1.Perm l2) :
    (∀ f ∈ l1, Classified f m) → ∀ req, Agree (rangeMatchFuncs l1 req m) (rangeMatchFuncs l2 req m) := by
  induction hp with
  | nil => intro _ req; exact Or.inl ⟨rfl, rfl, rfl⟩
  | cons x _ ih =>
    intro hc req
    have hx := hc x (List.mem_cons_self _ _)
    by_cases hs : Stops (x req m).1
    · have fx := classified_stop_false x m hx req hs
      rw [rangeMatchFuncs_cons_stop x _ _ _ hs, rangeMatchFuncs_cons_stop x _ _ _ hs]
      exact Or.inr ⟨_, _, rfl, rfl, fx, fx⟩
    · rw [rangeMatchFuncs_cons_pass x _ _ _ ((not_stops_iff _).1 hs),
        rangeMatchFuncs_cons_pass x _ _ _ ((not_stops_iff _).1 hs)]
      exact ih (fun g hg => hc g (List.mem_cons_of_mem _ hg)) _
  | swap x y l =>
    intro hc req
    exact swap_classified x y l req m (hc x (by simp)) (hc y (by simp))
      (fun g hg => hc g (by simp [hg]))
  | trans h12 _ ih1 ih2 =>
    intro hc req
    exact agree_trans (ih1 hc req) (ih2 (fun g hg => hc g (h12.mem_iff.2 hg)) req)

/-- Under the two oracle contracts every built-in predicate is inert or reads
the body strictly. -/
theorem builtinFuncs_classified (lib : Lib) (herr : lib.ErrorMeansFalse)
    (hempty : lib.RejectsEmptyBody) (m : Matcher) :
    ∀ f ∈ builtinFuncs lib, Classified f m := by
  intro f hf
  simp only [builtinFuncs, List.mem_cons, List.mem_singleton, List.not_mem_nil, or_false] at hf
  rcases hf with h | h | h | h | h | h | h | h | h <;> subst h
  · exact Or.inl (matchPath_inert m)
  · exact Or.inl (matchMethod_inert lib m)
  · by_cases hs : m.BodyString = ""
    · exact Or.inl (isMatchBodyString_unset m hs)
    · refine Or.inr ⟨fun b => (m.BodyString == b, none), ?_, fun s hne => absurd rfl hne,
        fun req => isMatchBodyString_set req m hs⟩
      simpa using hs
  · cases hj : m.BodyJSON with
    | none => exact Or.inl (isMatchBodyJSON_unset lib m hj)
    | some doc =>
      exact Or.inr ⟨fun b => lib.jsonEqual (GoValue.bytes b) doc, hempty doc,
        fun s => herr _ _, fun req => isMatchBodyJSON_set lib req m doc hj⟩
  · by_cases hs : m.BodyJSONString = ""
    · exact Or.inl (isMatchBodyJSONString_unset lib m hs)
    · exact Or.inr ⟨fun b => lib.jsonEqual (GoValue.bytes b) (GoValue.bytes m.BodyJSONString),
        hempty _, fun s => herr _ _, fun req => isMatchBodyJSONString_set lib req m hs⟩
  · exact Or.inl (isMatchPartOfHeader_inert m)
  · exact Or.inl (matchHeader_inert m)
  · exact Or.inl (isMatchPartOfQuery_inert lib m)
  · exact Or.inl (matchQuery_inert lib m)

/-- Claim C4. Let the JSON oracle return `false` whenever it returns an error
and never report equality for an empty request body, as `jsoneq.Equal` does.
For every request, with its body a stream that is read once, and every matcher,
the short-circuit run of the nine built-in predicates in any permutation of
their order ends with the same boolean as their run in the order of `isMatch`;
and with the custom predicate run last after the permuted built-in ones, the
boolean is that of `isMatch`. -/
theorem isMatch_order_independent (lib : Lib) (herr : lib.ErrorMeansFalse)
    (hempty : lib.RejectsEmptyBody) (req : Request) (m : Matcher) (fs : List matchFunc)
    (hperm : fs.Perm (builtinFuncs lib)) :
    (runInOrder fs req m).1.1 = (runInOrder (builtinFuncs lib) req m).1.1 ∧
    (runInOrder (fs ++ [matchCustom]) req m).1.1 = (isMatch lib req m).1.1 := by
  have hc := builtinFuncs_classified lib herr hempty m
  have hag := perm_agree m fs (builtinFuncs lib) hperm (fun f hf => hc f (hperm.mem_iff.1 hf)) req
  rw [isMatch_eq_runInOrder, stages_eq_builtin]
  unfold runInOrder
  rcases h1 : rangeMatchFuncs fs req m with ⟨o1, r1⟩
  rcases h2 : rangeMatchFuncs (builtinFuncs lib) req m with ⟨o2, r2⟩
  rw [h1, h2] at hag
  rcases hag with ⟨e1, e2, e3⟩ | ⟨va, vb, e1, e2, fa, fb⟩
  · simp only at e1 e2 e3
    subst e1 e2 e3
    rw [rangeMatchFuncs_append_none _ _ _ _ _ h1, rangeMatchFuncs_append_none _ _ _ _ _ h2]
    exact ⟨rfl, rfl⟩
  · simp only at e1 e2
    subst e1 e2
    rw [rangeMatchFuncs_append_some _ _ _ _ _ _ h1, rangeMatchFuncs_append_some _ _ _ _ _ _ h2]
    simp only
    rw [fa, fb]
    exact ⟨rfl, rfl⟩

/-- Claim C4 at a concrete input: on the request of the transport test the
built-in predicates run in reverse order end with the same boolean as in the
order of `isMatch`. -/
theorem isMatch_order_independent_witness :
    (runInOrder (builtinFuncs refLib).reverse postUsers createUser).1.1 =
      (runInOrder (builtinFuncs refLib) postUsers createUser).1.1 :=
  (isMatch_order_independent refLib refLib_errorMeansFalse refLib_rejectsEmptyBody postUsers
    createUser (builtinFuncs refLib).reverse (List.reverse_perm _)).1

/-- Claim C16. `isMatchService` returns `true` exactly when the request URL's
scheme, then `://`, then the request URL's host is the service's endpoint as a
string. Scheme http and host example.com match the endpoint
http://example.com. Nothing is normalised: the path and the query of the
request play no part, an endpoint that differs in letter case does not match,
and neither does an endpoint with a trailing slash. -/
theorem isMatchService_spec (req : Request) (service : Service) :
    (isMatchService req service = true ↔
      req.URL.Scheme ++ "://" ++ req.URL.Host = service.Endpoint) ∧
    (∀ path query, isMatchService
      { req with URL := { req.URL with Path := path, RawQuery := query } } service =
        isMatchService req service) ∧
    isMatchService exampleCom { Endpoint := "http://example.com" } = true ∧
    isMatchService exampleCom { Endpoint := "http://Example.com" } = false ∧
    isMatchService exampleCom { Endpoint := "http://example.com/" } = false := by
  refine ⟨?_, fun _ _ => rfl, by decide, by decide, by decide⟩
  simp [isMatchService]

/-- Claim C12. Each of the three body predicates, when its field of the matcher
is set and the request has a nil body, returns the non-match `false, nil`, never
an error, and leaves the request as it was. -/
theorem body_predicates_nil_body (lib : Lib) (req : Request) (m : Matcher)
    (hbody : req.Body = none) :
    (m.BodyString ≠ "" → isMatchBodyString req m = ((false, none), req)) ∧
    (m.BodyJSON ≠ none → isMatchBodyJSON lib req m = ((false, none), req)) ∧
    (m.BodyJSONString ≠ "" → isMatchBodyJSONString lib req m = ((false, none), req)) := by
  refine ⟨?_, ?_, ?_⟩
  · intro h
    simp [isMatchBodyString, h, hbody]
  · intro h
    cases hj : m.BodyJSON with
    | none => exact absurd hj h
    | some doc => simp [isMatchBodyJSON, hj, hbody]
  · intro h
    simp [isMatchBodyJSONString, h, hbody]

/-- Claim C12 at a concrete input: a matcher with a body string against a request
without a body is a non-match without error. -/
theorem body_predicates_nil_body_witness :
    isMatchBodyString noBody bodyFoo = ((false, none), noBody) :=
  (body_predicates_nil_body refLib noBody bodyFoo rfl).1 (by decide)

/-- Claim C13. When the matcher's `BodyString` is not empty and the body of the
request is read successfully and in full with content `b`, `isMatchBodyString`
returns the result of the string comparison `matcher.BodyString == b` with a nil
error, and leaves the body drained. The comparison is exact: the body foo
matches the body string foo, and neither bar nor foo followed by a blank. -/
theorem isMatchBodyString_spec (req : Request) (m : Matcher) (b : String)
    (hset : m.BodyString ≠ "") (hbody : req.Body = some { data := b, err := none }) :
    isMatchBodyString req m =
      ((m.BodyString == b, none), { req with Body := some { data := "", err := none } }) ∧
    (isMatchBodyString fooBody { BodyString := "foo" }).1 = (true, none) ∧
    (isMatchBodyString fooBody { BodyString := "bar" }).1 = (false, none) ∧
    (isMatchBodyString fooBody { BodyString := "foo " }).1 = (false, none) := by
  refine ⟨?_, by decide, by decide, by decide⟩
  simp [isMatchBodyString, hset, hbody, ReadAll]

/-- Claim C13 at a concrete input: the body foo against the body string foo. -/
theorem isMatchBodyString_spec_witness :
    isMatchBodyString fooBody bodyFoo =
      ((true, none), { fooBody with Body := some { data := "", err := none } }) :=
  (isMatchBodyString_spec fooBody bodyFoo "foo" (by decide) rfl).1

/-- When the predicates before `f` pass and `f` stops, the evaluator returns
what `f` returns. -/
theorem isMatch_stops_at (lib : Lib) (req req1 : Request) (m : Matcher)
    (pre post : List matchFunc) (f : matchFunc)
    (hsplit : stages lib = pre ++ f :: post)
    (hpre : rangeMatchFuncs pre req m = (none, req1))
    (hstop : Stops (f req1 m).1) :
    isMatch lib req m = f req1 m := by
  rw [isMatch_eq_runInOrder, hsplit]
  unfold runInOrder
  rw [rangeMatchFuncs_append_none _ _ _ _ _ hpre, rangeMatchFuncs_cons_stop _ _ _ _ hstop]

/-- When the predicates before the last ones pass, the evaluator is the run of
the last ones. -/
theorem isMatch_after (lib : Lib) (req req1 : Request) (m : Matcher)
    (pre post : List matchFunc)
    (hsplit : stages lib = pre ++ post)
    (hpre : rangeMatchFuncs pre req m = (none, req1)) :
    isMatch lib req m = runInOrder post req1 m := by
  rw [isMatch_eq_runInOrder, hsplit]
  unfold runInOrder
  rw [rangeMatchFuncs_append_none _ _ _ _ _ hpre]

/-- Every built-in predicate changes nothing of the request but its body. -/
theorem builtinFuncs_only_body (lib : Lib) (m : Matcher) :
    ∀ f ∈ builtinFuncs lib, ∀ req, ∃ b, (f req m).2 = { req with Body := b } := by
  intro f hf req
  have inert : ∀ g : matchFunc, Inert g m → ∃ b, (g req m).2 = { req with Body := b } :=
    fun g hg => ⟨req.Body, by rw [(hg req).1]⟩
  simp only [builtinFuncs, List.mem_cons, List.mem_singleton, List.not_mem_nil, or_false] at hf
  rcases hf with h | h | h | h | h | h | h | h | h <;> subst h
  · exact inert _ (matchPath_inert m)
  · exact inert _ (matchMethod_inert lib m)
  · by_cases hs : m.BodyString = ""
    · exact inert _ (isMatchBodyString_unset m hs)
    · rw [isMatchBodyString_set req m hs]
      exact readBody_request _ req
  · cases hj : m.BodyJSON with
    | none => exact inert _ (isMatchBodyJSON_unset lib m hj)
    | some doc =>
      rw [isMatchBodyJSON_set lib req m doc hj]
      exact readBody_request _ req
  · by_cases hs : m.BodyJSONString = ""
    · exact inert _ (isMatchBodyJSONString_unset lib m hs)
    · rw [isMatchBodyJSONString_set lib req m hs]
      exact readBody_request _ req
  · exact inert _ (isMatchPartOfHeader_inert m)
  · exact inert _ (matchHeader_inert m)
  · exact inert _ (isMatchPartOfQuery_inert lib m)
  · exact inert _ (matchQuery_inert lib m)

/-- A loop over predicates that change nothing but the body changes nothing but
the body. -/
theorem rangeMatchFuncs_only_body (fs : List matchFunc) (req : Request) (m : Matcher)
    (h : ∀ f ∈ fs, ∀ r, ∃ b, (f r m).2 = { r with Body := b }) :
    ∃ b, (rangeMatchFuncs fs req m).2 = { req with Body := b } := by
  induction fs generalizing req with
  | nil => exact ⟨req.Body, rfl⟩
  | cons f rest ih =>
    obtain ⟨b, hb⟩ := h f (List.mem_cons_self _ _) req
    simp only [rangeMatchFuncs]
    split_ifs
    · exact ⟨b, hb⟩
    · obtain ⟨b2, hb2⟩ := ih (f req m).2 (fun g hg r => h g (List.mem_cons_of_mem _ hg) r)
      rw [hb2, hb]
      exact ⟨b2, rfl⟩

/-- The loop of `isMatch` leaves the URL of the request as it is. -/
theorem matchFuncs_URL (lib : Lib) (req req1 : Request) (m : Matcher) (o : Option Verdict)
    (h : rangeMatchFuncs (matchFuncs lib) req m = (o, req1)) : req1.URL = req.URL := by
  have hmem : ∀ f ∈ matchFuncs lib, ∀ r, ∃ b, (f r m).2 = { r with Body := b } := by
    intro f hf r
    apply builtinFuncs_only_body lib m f _ r
    simp only [matchFuncs, builtinFuncs, List.mem_cons, List.mem_singleton, List.not_mem_nil,
      or_false] at hf ⊢
    rcases hf with h | h | h | h | h | h | h | h <;> simp [h]
  obtain ⟨b, hb⟩ := rangeMatchFuncs_only_body (matchFuncs lib) req m hmem
  rw [h] at hb
  simp only at hb
  rw [hb]

/-- Claim C11. Let the eight predicates of the loop of `isMatch` pass, leaving
the request as `req1`. When the matcher's `Query` is non-nil and is not
deep-equal to the parsed query of the request, `isMatch` returns `false, nil`;
in particular it does so when the request has a query parameter that `Query`
does not list. When `Query` is non-nil and deep-equal to the parsed query, and
when `Query` is nil, the query puts no constraint: the result is that of the
custom predicate alone. -/
theorem isMatch_query_exact (lib : Lib) (req req1 : Request) (m : Matcher)
    (hpass : rangeMatchFuncs (matchFuncs lib) req m = (none, req1)) :
    (m.Query ≠ none → deepEqualMap m.Query (req.URL.Query lib) = false →
      isMatch lib req m = ((false, none), req1)) ∧
    (m.Query ≠ none → deepEqualMap m.Query (req.URL.Query lib) = true →
      isMatch lib req m = runInOrder [matchCustom] req1 m) ∧
    (∀ k, m.Query ≠ none → index (req.URL.Query lib) k ≠ none → index m.Query k = none →
      isMatch lib req m = ((false, none), req1)) ∧
    (m.Query = none → isMatch lib req m = runInOrder [matchCustom] req1 m) := by
  have hurl := matchFuncs_URL lib req req1 m none hpass
  have hrun : isMatch lib req m = runInOrder [matchQuery lib, matchCustom] req1 m :=
    isMatch_after lib req req1 m (matchFuncs lib) _ rfl hpass
  have hfalse : m.Query ≠ none → deepEqualMap m.Query (req.URL.Query lib) = false →
      isMatch lib req m = ((false, none), req1) := by
    intro hq hde
    have hstop : Stops (matchQuery lib req1 m).1 := by
      right
      cases hQ : m.Query with
      | none => exact absurd hQ hq
      | some q =>
        rw [hQ] at hde
        simp [matchQuery, hQ, hurl, hde]
    rw [hrun]
    unfold runInOrder
    rw [rangeMatchFuncs_cons_stop _ _ _ _ hstop]
    cases hQ : m.Query with
    | none => exact absurd hQ hq
    | some q =>
      rw [hQ] at hde
      simp [matchQuery, hQ, hurl, hde]
  have hpassq : (m.Query = none ∨ deepEqualMap m.Query (req.URL.Query lib) = true) →
      isMatch lib req m = runInOrder [matchCustom] req1 m := by
    intro h
    have hp : (matchQuery lib req1 m).1 = (true, none) := by
      rcases h with h | h
      · simp [matchQuery, h]
      · simp [matchQuery, hurl, h]
    rw [hrun]
    unfold runInOrder
    rw [rangeMatchFuncs_cons_pass _ _ _ _ hp]
    rfl
  refine ⟨hfalse, fun _ h => hpassq (Or.inr h), ?_, fun h => hpassq (Or.inl h)⟩
  intro k hq hreq hm
  apply hfalse hq
  by_contra hne
  have hde : deepEqualMap m.Query (req.URL.Query lib) = true := by
    cases h : deepEqualMap m.Query (req.URL.Query lib)
    · exact absurd h hne
    · rfl
  have := ((deepEqualMap_iff _ _).1 hde).2 k
  rw [hm] at this
  exact hreq this

/-- Claim C11 at a concrete input: the query with name and age against the
matcher that wants exactly name is a non-match. -/
theorem isMatch_query_exact_witness :
    isMatch refLib nameAndAge onlyName = ((false, none), nameAndAge) :=
  (isMatch_query_exact refLib nameAndAge nameAndAge onlyName (by decide)).2.2.1 "age"
    (by decide) (by decide) (by decide)

theorem prefix_two (lib : Lib) (req : Request) (m : Matcher)
    (hpath : (matchPath req m).1 = (true, none))
    (hmethod : (matchMethod lib req m).1 = (true, none)) :
    rangeMatchFuncs [matchPath, matchMethod lib] req m = (none, req) := by
  rw [rangeMatchFuncs_cons_pass _ _ _ _ hpath]
  have h1 : (matchPath req m).2 = req := rfl
  rw [h1, rangeMatchFuncs_cons_pass _ _ _ _ hmethod]
  rfl

theorem prefix_snoc (pre : List matchFunc) (f : matchFunc) (req : Request) (m : Matcher)
    (hpre : rangeMatchFuncs pre req m = (none, req)) (hf : f req m = ((true, none), req)) :
    rangeMatchFuncs (pre ++ [f]) req m = (none, req) := by
  rw [rangeMatchFuncs_append_none _ _ _ _ _ hpre,
    rangeMatchFuncs_cons_pass _ _ _ _ (by rw [hf]), hf]
  rfl

/-- Claim C14. When the body of the request is read successfully with content
`b`, `isMatchBodyJSON` with a non-nil `BodyJSON` and `isMatchBodyJSONString` with a
non-empty `BodyJSONString` return exactly the boolean and the error that the JSON
oracle returns for `b` and the document of the matcher, and leave the body
drained. When the oracle returns an error, and the predicates that `isMatch` runs
before have passed on a request `req0` and left it as `req`, `isMatch` returns
that result too: a non-nil error and not the non-match `false, nil`. -/
theorem json_predicates_return_oracle (lib : Lib) (req0 req : Request) (m : Matcher) (b : String)
    (hbody : req.Body = some { data := b, err := none }) :
    (∀ doc, m.BodyJSON = some doc →
      isMatchBodyJSON lib req m =
        (lib.jsonEqual (GoValue.bytes b) doc,
          { req with Body := some { data := "", err := none } })) ∧
    (m.BodyJSONString ≠ "" →
      isMatchBodyJSONString lib req m =
        (lib.jsonEqual (GoValue.bytes b) (GoValue.bytes m.BodyJSONString),
          { req with Body := some { data := "", err := none } })) ∧
    (∀ doc e, m.BodyJSON = some doc → (lib.jsonEqual (GoValue.bytes b) doc).2 = some e →
      rangeMatchFuncs [matchPath, matchMethod lib, isMatchBodyString] req0 m = (none, req) →
      (isMatch lib req0 m).1 = lib.jsonEqual (GoValue.bytes b) doc ∧
        (isMatch lib req0 m).1.2 = some e ∧ (isMatch lib req0 m).1 ≠ (false, none)) ∧
    (∀ e, m.BodyJSONString ≠ "" →
      (lib.jsonEqual (GoValue.bytes b) (GoValue.bytes m.BodyJSONString)).2 = some e →
      rangeMatchFuncs [matchPath, matchMethod lib, isMatchBodyString, isMatchBodyJSON lib]
        req0 m = (none, req) →
      (isMatch lib req0 m).1 = lib.jsonEqual (GoValue.bytes b) (GoValue.bytes m.BodyJSONString) ∧
        (isMatch lib req0 m).1.2 = some e ∧ (isMatch lib req0 m).1 ≠ (false, none)) := by
  have hJ : ∀ doc, m.BodyJSON = some doc →
      isMatchBodyJSON lib req m =
        (lib.jsonEqual (GoValue.bytes b) doc,
          { req with Body := some { data := "", err := none } }) := by
    intro doc hdoc
    simp [isMatchBodyJSON, hdoc, hbody, ReadAll]
  have hJS : m.BodyJSONString ≠ "" →
      isMatchBodyJSONString lib req m =
        (lib.jsonEqual (GoValue.bytes b) (GoValue.bytes m.BodyJSONString),
          { req with Body := some { data := "", err := none } }) := by
    intro hset
    simp [isMatchBodyJSONString, hset, hbody, ReadAll]
  have herr : ∀ (v : Verdict) (e : GoError), v.2 = some e → v.2 = some e ∧ v ≠ (false, none) := by
    intro v e he
    refine ⟨he, ?_⟩
    intro hv
    rw [hv] at he
    simp at he
  refine ⟨hJ, hJS, ?_, ?_⟩
  · intro doc e hdoc he hpre
    have hstop : Stops (isMatchBodyJSON lib req m).1 := by
      rw [hJ doc hdoc]
      left
      simp [he]
    have h := isMatch_stops_at lib req0 req m
      [matchPath, matchMethod lib, isMatchBodyString] _ (isMatchBodyJSON lib) rfl hpre hstop
    rw [h, hJ doc hdoc]
    exact ⟨rfl, herr _ e he⟩
  · intro e hset he hpre
    have hstop : Stops (isMatchBodyJSONString lib req m).1 := by
      rw [hJS hset]
      left
      simp [he]
    have h := isMatch_stops_at lib req0 req m
      [matchPath, matchMethod lib, isMatchBodyString, isMatchBodyJSON lib] _
      (isMatchBodyJSONString lib) rfl hpre hstop
    rw [h, hJS hset]
    exact ⟨rfl, herr _ e he⟩

/-- Claim C14 at a concrete input: an empty body is not a JSON document, and
`isMatch` returns the error of the oracle. -/
theorem json_predicates_return_oracle_witness :
    (isMatch refLib emptyBody jsonObject).1 =
      (false, some (GoError.new "unexpected end of JSON input")) :=
  ((json_predicates_return_oracle refLib emptyBody emptyBody jsonObject "" rfl).2.2.2
    (GoError.new "unexpected end of JSON input") (by decide) (by decide) (by decide)).1

/-- Claim C15. When the body of the request fails to be read with the error `e`,
at least one body field of the matcher is set, and the path and the method
predicates pass, `isMatch` returns `false` with the error that wraps `e`, and
leaves the request as the failed read left it. The result does not depend on
anything else in the matcher: no later predicate has a part in it. -/
theorem isMatch_read_failure (lib : Lib) (req : Request) (m : Matcher) (d : String)
    (e : GoError) (hbody : req.Body = some { data := d, err := some e })
    (hset : 1 ≤ bodyFieldsSet m)
    (hpath : (matchPath req m).1 = (true, none))
    (hmethod : (matchMethod lib req m).1 = (true, none)) :
    isMatch lib req m =
      ((false, some (GoError.wrap "failed to read the request body: " e)),
        { req with Body := some { data := "", err := some e } }) := by
  have h2 := prefix_two lib req m hpath hmethod
  by_cases hs : m.BodyString = ""
  · have hS : isMatchBodyString req m = ((true, none), req) := by
      simp [isMatchBodyString, hs]
    have h3 : rangeMatchFuncs [matchPath, matchMethod lib, isMatchBodyString] req m =
        (none, req) := prefix_snoc _ _ req m h2 hS
    cases hj : m.BodyJSON with
    | none =>
      have hJ : isMatchBodyJSON lib req m = ((true, none), req) := by
        simp [isMatchBodyJSON, hj]
      have h4 : rangeMatchFuncs [matchPath, matchMethod lib, isMatchBodyString,
          isMatchBodyJSON lib] req m = (none, req) := prefix_snoc _ _ req m h3 hJ
      have hjs : m.BodyJSONString ≠ "" := by
        intro hjs
        simp [bodyFieldsSet, hs, hj, hjs] at hset
      have hres : isMatchBodyJSONString lib req m =
          ((false, some (GoError.wrap "failed to read the request body: " e)),
            { req with Body := some { data := "", err := some e } }) := by
        simp [isMatchBodyJSONString, hjs, hbody, ReadAll]
      have hstop : Stops (isMatchBodyJSONString lib req m).1 := by
        rw [hres]; exact Or.inr rfl
      rw [isMatch_stops_at lib req req m _ _ (isMatchBodyJSONString lib) rfl h4 hstop, hres]
    | some doc =>
      have hres : isMatchBodyJSON lib req m =
          ((false, some (GoError.wrap "failed to read the request body: " e)),
            { req with Body := some { data := "", err := some e } }) := by
        simp [isMatchBodyJSON, hj, hbody, ReadAll]
      have hstop : Stops (isMatchBodyJSON lib req m).1 := by
        rw [hres]; exact Or.inr rfl
      rw [isMatch_stops_at lib req req m _ _ (isMatchBodyJSON lib) rfl h3 hstop, hres]
  · have hres : isMatchBodyString req m =
        ((false, some (GoError.wrap "failed to read the request body: " e)),
          { req with Body := some { data := "", err := some e } }) := by
      simp [isMatchBodyString, hs, hbody, ReadAll]
    have hstop : Stops (isMatchBodyString req m).1 := by
      rw [hres]; exact Or.inr rfl
    rw [isMatch_stops_at lib req req m _ _ isMatchBodyString rfl h2 hstop, hres]

/-- Claim C15 at a concrete input: a body that breaks off while it is read makes
`isMatch` return the wrapped read error. -/
theorem isMatch_read_failure_witness :
    (isMatch refLib brokenBody bodyFoo).1 =
      (false, some (GoError.wrap "failed to read the request body: "
        (GoError.new "unexpected EOF"))) :=
  congrArg Prod.fst (isMatch_read_failure refLib brokenBody bodyFoo "fo"
    (GoError.new "unexpected EOF") rfl (by decide) (by decide) (by decide))

theorem isMatchPartOfHeader_true_iff (req : Request) (m : Matcher) :
    (isMatchPartOfHeader req m).1 = (true, none) ↔
      ∀ k v, index m.PartOfHeader k = some v →
        ∃ a, index req.Header k = some a ∧ ∀ ys, v = some ys → a = some ys := by
  rw [← rangePartOf_entries_iff]
  simp [isMatchPartOfHeader]

theorem isMatchPartOfQuery_true_iff (lib : Lib) (req : Request) (m : Matcher) :
    (isMatchPartOfQuery lib req m).1 = (true, none) ↔
      ∀ k v, index m.PartOfQuery k = some v →
        ∃ a, index (req.URL.Query lib) k = some a ∧ ∀ ys, v = some ys → a = some ys := by
  rw [← rangePartOf_entries_iff]
  cases h : m.PartOfQuery with
  | none => simp [isMatchPartOfQuery, h, rangeEntries, rangePartOf]
  | some mm => simp [isMatchPartOfQuery, h]

theorem isMatchPartOfHeader_bool (req : Request) (m : Matcher) :
    (isMatchPartOfHeader req m).1.1 = true ↔ (isMatchPartOfHeader req m).1 = (true, none) :=
  sound_bool_iff _ m (inert_sound _ m (isMatchPartOfHeader_inert m)) req

theorem isMatchPartOfQuery_bool (lib : Lib) (req : Request) (m : Matcher) :
    (isMatchPartOfQuery lib req m).1.1 = true ↔ (isMatchPartOfQuery lib req m).1 = (true, none) :=
  sound_bool_iff _ m (inert_sound _ m (isMatchPartOfQuery_inert lib m)) req

/-- Claim C17. The subset predicates are monotone in the request. If every
header key of `r` is a header key of `r'` with the same value list, and
`isMatchPartOfHeader` returns `true` for `r`, it returns `true, nil` for `r'`. If
every parsed query parameter of `r` is one of `r'` with the same value list,
and `isMatchPartOfQuery` returns `true` for `r`, it returns `true, nil` for `r'`. -/
theorem subset_predicates_monotone (lib : Lib) (r r' : Request) (m : Matcher) :
    ((∀ k a, index r.Header k = some a → index r'.Header k = some a) →
      (isMatchPartOfHeader r m).1.1 = true → (isMatchPartOfHeader r' m).1 = (true, none)) ∧
    ((∀ k a, index (r.URL.Query lib) k = some a → index (r'.URL.Query lib) k = some a) →
      (isMatchPartOfQuery lib r m).1.1 = true →
        (isMatchPartOfQuery lib r' m).1 = (true, none)) := by
  constructor
  · intro hsub h
    rw [isMatchPartOfHeader_bool, isMatchPartOfHeader_true_iff] at h
    rw [isMatchPartOfHeader_true_iff]
    intro k v hidx
    obtain ⟨a, ha, hv⟩ := h k v hidx
    exact ⟨a, hsub k a ha, hv⟩
  · intro hsub h
    rw [isMatchPartOfQuery_bool, isMatchPartOfQuery_true_iff] at h
    rw [isMatchPartOfQuery_true_iff]
    intro k v hidx
    obtain ⟨a, ha, hv⟩ := h k v hidx
    exact ⟨a, hsub k a ha, hv⟩

/-- Claim C17 at a concrete input: the matcher that wants FOO among the headers
matches the request with FOO, hence the request with FOO and BAR. -/
theorem subset_predicates_monotone_witness :
    (isMatchPartOfHeader fooBarRequest someFoo).1 = (true, none) :=
  (subset_predicates_monotone refLib fooRequest fooBarRequest someFoo).1
    (by
      intro k a h
      by_cases hk : "FOO" = k
      · subst hk
        have ha : a = some ["foo"] := by
          simpa [index, lookupEntries, fooRequest] using h.symm
        subst ha
        decide
      · simp [index, lookupEntries, fooRequest, hk] at h)
    (by decide)

/-- Claim C18, counterexample. The request carries the header FOO, the matcher
lists FOO with a zero-length value list that is not nil, and
`isMatchPartOfHeader` returns `false`: the values are compared. The same holds
of the query parameter name for `isMatchPartOfQuery`. -/
theorem zero_length_list_is_compared :
    index fooRequest.Header "FOO" = some (some ["foo"]) ∧
    index emptyFoo.PartOfHeader "FOO" = some (some []) ∧
    (isMatchPartOfHeader fooRequest emptyFoo).1 = (false, none) ∧
    index (nameFoo.URL.Query refLib) "name" = some (some ["foo"]) ∧
    index emptyName.PartOfQuery "name" = some (some []) ∧
    (isMatchPartOfQuery refLib nameFoo emptyName).1 = (false, none) := by
  decide

/-- For one wanted key the loop succeeds exactly when the key is found and the
wanted value list is nil or is the value list found. -/
theorem rangePartOf_single (have_ : Option StringsMap) (k : String) (v : Strings) :
    rangePartOf have_ [(k, v)] = true ↔
      ∃ a, index have_ k = some a ∧ (v = none ∨ a = v) := by
  rw [rangePartOf_iff]
  simp only [List.mem_singleton, forall_eq]
  constructor
  · rintro ⟨a, ha, hv⟩
    refine ⟨a, ha, ?_⟩
    cases v with
    | none => exact Or.inl rfl
    | some ys => exact Or.inr (hv ys rfl)
  · rintro ⟨a, ha, hv⟩
    refine ⟨a, ha, ?_⟩
    intro ys hys
    rcases hv with hv | hv
    · rw [hv] at hys
      simp at hys
    · rw [hv, hys]

/-- Claim C18, amended. The values of a key listed in `PartOfHeader` or in
`PartOfQuery` are compared with the request's exactly when the matcher gives a
non-nil value list for the key. `isMatchPartOfHeader` returns `true, nil` exactly
when every listed key is present in the request and its listed value list is
nil or is the request's value list; likewise `isMatchPartOfQuery` on the parsed
query. A matcher that lists one key with a nil value list is satisfied by the
presence of the key alone, whatever the values; a matcher that lists one key
with a zero-length list that is not nil is satisfied only by a request whose
value list for the key is zero-length and not nil. -/
theorem partOf_compares_non_nil_lists (lib : Lib) (req : Request) (m : Matcher) :
    ((isMatchPartOfHeader req m).1 = (true, none) ↔
      ∀ k v, index m.PartOfHeader k = some v →
        ∃ a, index req.Header k = some a ∧ (v = none ∨ a = v)) ∧
    ((isMatchPartOfQuery lib req m).1 = (true, none) ↔
      ∀ k v, index m.PartOfQuery k = some v →
        ∃ a, index (req.URL.Query lib) k = some a ∧ (v = none ∨ a = v)) ∧
    (∀ k h, m.PartOfHeader = some ⟨[(k, none)], h⟩ →
      ((isMatchPartOfHeader req m).1 = (true, none) ↔ ∃ a, index req.Header k = some a)) ∧
    (∀ k h, m.PartOfHeader = some ⟨[(k, some [])], h⟩ →
      ((isMatchPartOfHeader req m).1 = (true, none) ↔ index req.Header k = some (some []))) ∧
    (∀ k h, m.PartOfQuery = some ⟨[(k, none)], h⟩ →
      ((isMatchPartOfQuery lib req m).1 = (true, none) ↔
        ∃ a, index (req.URL.Query lib) k = some a)) ∧
    (∀ k h, m.PartOfQuery = some ⟨[(k, some [])], h⟩ →
      ((isMatchPartOfQuery lib req m).1 = (true, none) ↔
        index (req.URL.Query lib) k = some (some []))) := by
  have conv : ∀ (have_ : Option StringsMap) (want : Option StringsMap),
      (∀ k v, index want k = some v →
        ∃ a, index have_ k = some a ∧ ∀ ys, v = some ys → a = some ys) ↔
      (∀ k v, index want k = some v → ∃ a, index have_ k = some a ∧ (v = none ∨ a = v)) := by
    intro have_ want
    constructor
    · intro h k v hidx
      obtain ⟨a, ha, hv⟩ := h k v hidx
      refine ⟨a, ha, ?_⟩
      cases v with
      | none => exact Or.inl rfl
      | some ys => exact Or.inr (hv ys rfl)
    · intro h k v hidx
      obtain ⟨a, ha, hv⟩ := h k v hidx
      refine ⟨a, ha, ?_⟩
      intro ys hys
      rcases hv with hv | hv
      · rw [hv] at hys
        simp at hys
      · rw [hv, hys]
  have hH : ∀ k v h, m.PartOfHeader = some ⟨[(k, v)], h⟩ →
      ((isMatchPartOfHeader req m).1 = (true, none) ↔
        ∃ a, index req.Header k = some a ∧ (v = none ∨ a = v)) := by
    intro k v h hm
    rw [← rangePartOf_single]
    simp [isMatchPartOfHeader, hm, rangeEntries]
  have hQ : ∀ k v h, m.PartOfQuery = some ⟨[(k, v)], h⟩ →
      ((isMatchPartOfQuery lib req m).1 = (true, none) ↔
        ∃ a, index (req.URL.Query lib) k = some a ∧ (v = none ∨ a = v)) := by
    intro k v h hm
    rw [← rangePartOf_single]
    simp [isMatchPartOfQuery, hm, rangeEntries]
  refine ⟨?_, ?_, ?_, ?_, ?_, ?_⟩
  · rw [isMatchPartOfHeader_true_iff, conv]
  · rw [isMatchPartOfQuery_true_iff, conv]
  · intro k h hm
    rw [hH k none h hm]
    simp
  · intro k h hm
    rw [hH k (some []) h hm]
    simp
  · intro k h hm
    rw [hQ k none h hm]
    simp
  · intro k h hm
    rw [hQ k (some []) h hm]
    simp

/-- Claim C18 as amended, at a concrete input: the matcher that lists FOO with a
zero-length list matches the request whose list for FOO is zero-length. -/
theorem partOf_compares_non_nil_lists_witness :
    (isMatchPartOfHeader fooNoValues emptyFoo).1 = (true, none) :=
  ((partOf_compares_non_nil_lists refLib fooNoValues emptyFoo).2.2.2.1 "FOO" (by decide) rfl).2
    (by decide)

theorem dispatch_skip (lib : Lib) (pre l : List Service) (req : Request)
    (hpre : ∀ s ∈ pre, isMatchService req s = false) :
    dispatch lib (pre ++ l) req = dispatch lib l req := by
  induction pre with
  | nil => rfl
  | cons s rest ih =>
    simp only [List.cons_append, dispatch, hpre s (List.mem_cons_self _ _)]
    exact ih (fun x hx => hpre x (List.mem_cons_of_mem _ hx))

/-- Routes that are non-matches without error and leave the request as it was
are passed over by the scan. -/
theorem scanRoutes_skip (lib : Lib) (rpre l : List Route) (req : Request)
    (hskip : ∀ r ∈ rpre, ∃ m, r.Matcher = some m ∧ isMatch lib req m = ((false, none), req)) :
    scanRoutes lib (rpre ++ l) req = scanRoutes lib l req := by
  induction rpre with
  | nil => rfl
  | cons r rest ih =>
    obtain ⟨m, hm, hv⟩ := hskip r (List.mem_cons_self _ _)
    simp only [List.cons_append, scanRoutes, hm, hv]
    exact ih (fun x hx => hskip x (List.mem_cons_of_mem _ hx))

/-- Claim C19, counterexample. In both cases the one service matches the
request, and of its two routes only the second matches the request by
`isMatch`, yet the dispatcher does not return the second route. In the first
case the first route does not match because its custom predicate returns
`false` with an error, and the dispatcher returns that error. In the second case
the first route wants the body x and is a plain non-match `false, nil` for the
body y, but its evaluation has read the body, and the dispatcher finds no
route. -/
theorem dispatch_misses_matching_route :
    (isMatchService postUsers failingFirstService = true ∧
      failingFirstService.Routes = [failingRoute, createUserRoute] ∧
      failingRoute.Matcher = some failingCustom ∧
      (isMatch refLib postUsers failingCustom).1.1 = false ∧
      (isMatch refLib postUsers { Method := "POST", Path := "/users" }).1 = (true, none) ∧
      (dispatch refLib [failingFirstService] postUsers).1 =
        (none, some (GoError.new "failed to match"))) ∧
    (isMatchService bodyY bodyRoutesService = true ∧
      bodyRoutesService.Routes = [routeX, routeY] ∧
      (isMatch refLib bodyY { BodyString := "x" }).1 = (false, none) ∧
      (isMatch refLib bodyY { BodyString := "y" }).1 = (true, none) ∧
      (dispatch refLib [bodyRoutesService] bodyY).1 = (none, none)) :=
  ⟨⟨by decide, rfl, rfl, by decide, by decide, rfl⟩,
    ⟨by decide, rfl, by decide, by decide, rfl⟩⟩

/-- Claim C19, amended. Every route is judged on the request as it was sent.
Let the services before the K-th not match the request and the K-th match it;
let `isMatch` on the request return `false, nil` for the matcher of every route of
the K-th service before the M-th and leave the request as it was, and let the
M-th route have a nil matcher or one for which `isMatch` on the request returns
`true, nil`. Then the dispatcher returns the M-th route with no error and leaves
the request as the evaluation of the M-th route left it, whatever the other
services and their routes are; and `RoundTrip` returns the response of that
route, with its status code, and no error. -/
theorem dispatch_selects_route (lib : Lib) (req : Request) (pre post : List Service)
    (svc : Service) (rpre rpost : List Route) (route : Route)
    (hpre : ∀ s ∈ pre, isMatchService req s = false)
    (hsvc : isMatchService req svc = true)
    (hroutes : svc.Routes = rpre ++ route :: rpost)
    (hskip : ∀ r ∈ rpre, ∃ m, r.Matcher = some m ∧ isMatch lib req m = ((false, none), req))
    (hmatch : route.Matcher = none ∨
      ∃ m, route.Matcher = some m ∧ (isMatch lib req m).1 = (true, none)) :
    (dispatch lib (pre ++ svc :: post) req).1 = (some route, none) ∧
    (dispatch lib (pre ++ svc :: post) req).2 =
      (match route.Matcher with
        | none => req
        | some m => (isMatch lib req m).2) ∧
    (∀ env t, t.Services = pre ++ svc :: post →
      (RoundTrip lib env t req).2 = none ∧
      (RoundTrip lib env t req).1.map HTTPResponse.StatusCode =
        some route.Response.Base.StatusCode) := by
  have hd : dispatch lib (pre ++ svc :: post) req =
      ((some route, none), match route.Matcher with
        | none => req
        | some m => (isMatch lib req m).2) := by
    rw [dispatch_skip lib pre _ req hpre]
    simp only [dispatch, hsvc, if_true]
    rw [hroutes, scanRoutes_skip lib rpre _ req hskip]
    rcases hmatch with h | ⟨m, hm, hv⟩
    · simp [scanRoutes, h]
    · simp [scanRoutes, hm, hv]
  refine ⟨by rw [hd], by rw [hd], ?_⟩
  intro env t ht
  unfold RoundTrip
  rw [ht, hd]
  exact ⟨rfl, rfl⟩

/-- Claim C19 as amended, at the input of the transport test: the services
example.org and example.com, the routes GET and POST /users, and the request
POST http://example.com/users give the second route, and status 201. -/
theorem dispatch_selects_route_witness :
    (dispatch refLib [exampleOrgService, exampleComService] postUsers).1 =
      (some createUserRoute, none) ∧
    (RoundTrip refLib { DefaultTransport := unauthorized }
      { Services := [exampleOrgService, exampleComService] } postUsers).1.map
        HTTPResponse.StatusCode = some 201 :=
  ⟨(dispatch_selects_route refLib postUsers [exampleOrgService] [] exampleComService
      [getRoute] [] createUserRoute (by decide) (by decide) rfl
      (by
        intro r hr
        rw [List.mem_singleton] at hr
        subst hr
        exact ⟨_, rfl, by decide⟩)
      (Or.inr ⟨_, rfl, by decide⟩)).1,
    ((dispatch_selects_route refLib postUsers [exampleOrgService] [] exampleComService
      [getRoute] [] createUserRoute (by decide) (by decide) rfl
      (by
        intro r hr
        rw [List.mem_singleton] at hr
        subst hr
        exact ⟨_, rfl, by decide⟩)
      (Or.inr ⟨_, rfl, by decide⟩)).2.2
      { DefaultTransport := unauthorized }
      { Services := [exampleOrgService, exampleComService] } rfl).2⟩

/-- Claim C20. Let the request be routed to a service, the first whose endpoint
matches, whose first route has a matcher with a custom predicate; let the
built-in predicates of that matcher pass, so that the custom predicate is
called, and let it return a non-nil error. Then the dispatcher stops with that
error, leaving the request as the custom predicate left it, and `RoundTrip`
returns no response and that error, whatever the later routes, the later
services, the inner transport and the default transports are: none of them has
a part in the result. -/
theorem RoundTrip_custom_error (lib : Lib) (env : Defaults) (t : Transport) (req req1 : Request)
    (pre post : List Service) (svc : Service) (route : Route) (rest : List Route)
    (m : Matcher) (f : Request → Verdict × Request) (e : GoError)
    (hservices : t.Services = pre ++ svc :: post)
    (hpre : ∀ s ∈ pre, isMatchService req s = false)
    (hsvc : isMatchService req svc = true)
    (hroutes : svc.Routes = route :: rest)
    (hm : route.Matcher = some m) (hf : m.Match = some f)
    (hbuiltin : rangeMatchFuncs (builtinFuncs lib) req m = (none, req1))
    (herr : (f req1).1.2 = some e) :
    dispatch lib t.Services req = ((none, some e), (f req1).2) ∧
    RoundTrip lib env t req = (none, some e) := by
  have hmatch : isMatch lib req m = f req1 := by
    have hstop : Stops (matchCustom req1 m).1 := by
      left
      simp [matchCustom, hf, herr]
    rw [isMatch_stops_at lib req req1 m (builtinFuncs lib) [] matchCustom rfl hbuiltin hstop]
    simp [matchCustom, hf]
  have hd : dispatch lib t.Services req = ((none, some e), (f req1).2) := by
    rw [hservices, dispatch_skip lib pre _ req hpre]
    simp only [dispatch, hsvc, if_true]
    rw [hroutes]
    simp [scanRoutes, hm, hmatch, herr]
  refine ⟨hd, ?_⟩
  unfold RoundTrip
  rw [hd]

/-- Claim C20 at the input of the transport test: the custom predicate fails with
an error, and `RoundTrip` returns that error although a fallback transport is
configured. -/
theorem RoundTrip_custom_error_witness :
    RoundTrip refLib { DefaultTransport := unauthorized }
      { Services := [failingService], Transport := some unauthorized } postUsers =
        (none, some (GoError.new "failed to match")) :=
  (RoundTrip_custom_error refLib { DefaultTransport := unauthorized }
    { Services := [failingService], Transport := some unauthorized } postUsers postUsers
    [] [] failingService failingRoute [] failingCustom
    (fun req => ((false, some (GoError.new "failed to match")), req))
    (GoError.new "failed to match") rfl (by simp) (by decide) rfl rfl rfl (by decide) rfl).2

/-- A body read that passes leaves the body drained, with no error pending. -/
theorem readBody_pass_drains (cmp : String → Verdict) (req : Request)
    (h : (readBody cmp req).1 = (true, none)) :
    (readBody cmp req).2 = { req with Body := some { data := "", err := none } } := by
  obtain ⟨method, url, header, body⟩ := req
  cases body with
  | none => simp [readBody] at h
  | some body =>
    cases he : (ReadAll body).1.2 with
    | some e => simp [readBody, he] at h
    | none =>
      have he1 : body.err = none := he
      simp [readBody, he, ReadAll, he1]

/-- A body read on a drained body decides on the empty content. -/
theorem readBody_drained (cmp : String → Verdict) (req : Request)
    (h : req.Body = some { data := "", err := none }) :
    (readBody cmp req).1 = cmp "" := by
  simp [readBody, h, ReadAll]

/-- A loop with two body readers, and only inert predicates before the second
one, never runs to its end: the second reader finds the body drained. -/
theorem two_body_readers_never_pass (pre mid post : List matchFunc) (f1 f2 : matchFunc)
    (req : Request) (m : Matcher)
    (hpre : ∀ f ∈ pre, Inert f m) (hmid : ∀ f ∈ mid, Inert f m)
    (h1 : ReadsBody f1 m) (h2 : ReadsBody f2 m) :
    (rangeMatchFuncs (pre ++ f1 :: (mid ++ f2 :: post)) req m).1 ≠ none := by
  obtain ⟨c1, _, hf1⟩ := h1
  obtain ⟨c2, hc2, hf2⟩ := h2
  have hreq := rangeMatchFuncs_inert_request pre req m hpre
  rcases hloop : rangeMatchFuncs pre req m with ⟨_ | v, r1⟩
  · rw [hloop] at hreq
    simp only at hreq
    subst hreq
    rw [rangeMatchFuncs_append_none _ _ _ _ _ hloop]
    by_cases hs1 : Stops (f1 r1 m).1
    · rw [rangeMatchFuncs_cons_stop _ _ _ _ hs1]
      simp
    · have hp1 := (not_stops_iff _).1 hs1
      rw [rangeMatchFuncs_cons_pass _ _ _ _ hp1]
      have hstate : (f1 r1 m).2 = { r1 with Body := some { data := "", err := none } } := by
        rw [hf1 r1] at hp1 ⊢
        exact readBody_pass_drains c1 r1 hp1
      rw [hstate]
      have hreq2 := rangeMatchFuncs_inert_request mid
        { r1 with Body := some { data := "", err := none } } m hmid
      rcases hloop2 : rangeMatchFuncs mid
          { r1 with Body := some { data := "", err := none } } m with ⟨_ | v2, r2⟩
      · rw [hloop2] at hreq2
        simp only at hreq2
        subst hreq2
        rw [rangeMatchFuncs_append_none _ _ _ _ _ hloop2]
        have hs2 : Stops (f2 { r1 with Body := some { data := "", err := none } } m).1 := by
          right
          rw [hf2, readBody_drained c2 _ rfl]
          exact hc2
        rw [rangeMatchFuncs_cons_stop _ _ _ _ hs2]
        simp
      · rw [rangeMatchFuncs_append_some _ _ _ _ _ _ hloop2]
        simp
  · rw [rangeMatchFuncs_append_some _ _ _ _ _ _ hloop]
    simp

theorem isMatchBodyString_reads (m : Matcher) (h : m.BodyString ≠ "") :
    ReadsBody isMatchBodyString m :=
  ⟨fun b => (m.BodyString == b, none), by simpa using h,
    fun req => isMatchBodyString_set req m h⟩

theorem isMatchBodyJSON_reads (lib : Lib) (hempty : lib.RejectsEmptyBody) (m : Matcher)
    (doc : GoValue) (h : m.BodyJSON = some doc) : ReadsBody (isMatchBodyJSON lib) m :=
  ⟨fun b => lib.jsonEqual (GoValue.bytes b) doc, hempty doc,
    fun req => isMatchBodyJSON_set lib req m doc h⟩

theorem isMatchBodyJSONString_reads (lib : Lib) (hempty : lib.RejectsEmptyBody) (m : Matcher)
    (h : m.BodyJSONString ≠ "") : ReadsBody (isMatchBodyJSONString lib) m :=
  ⟨fun b => lib.jsonEqual (GoValue.bytes b) (GoValue.bytes m.BodyJSONString), hempty _,
    fun req => isMatchBodyJSONString_set lib req m h⟩

/-- Claim C21. Let the JSON oracle not report equality for an empty document.
For every request, its body a stream that is read once, and every matcher with
two or more of the three body fields set, `isMatch` does not return `true, nil`.
The reason is in the body predicates: one that passes leaves the body drained,
and on a drained body each of them, when its field is set, returns `false`. -/
theorem isMatch_two_body_fields_never_match (lib : Lib) (hempty : lib.RejectsEmptyBody)
    (req : Request) (m : Matcher) (htwo : 2 ≤ bodyFieldsSet m) :
    (isMatch lib req m).1 ≠ (true, none) ∧
    (∀ r, (m.BodyString ≠ "" → (isMatchBodyString r m).1 = (true, none) →
        (isMatchBodyString r m).2.Body = some { data := "", err := none }) ∧
      (m.BodyJSON ≠ none → (isMatchBodyJSON lib r m).1 = (true, none) →
        (isMatchBodyJSON lib r m).2.Body = some { data := "", err := none }) ∧
      (m.BodyJSONString ≠ "" → (isMatchBodyJSONString lib r m).1 = (true, none) →
        (isMatchBodyJSONString lib r m).2.Body = some { data := "", err := none })) ∧
    (∀ r, r.Body = some { data := "", err := none } →
      (m.BodyString ≠ "" → (isMatchBodyString r m).1.1 = false) ∧
      (m.BodyJSON ≠ none → (isMatchBodyJSON lib r m).1.1 = false) ∧
      (m.BodyJSONString ≠ "" → (isMatchBodyJSONString lib r m).1.1 = false)) := by
  have hP := matchPath_inert m
  have hM := matchMethod_inert lib m
  refine ⟨?_, ?_, ?_⟩
  · intro hpass
    rw [isMatch_eq_runInOrder, runInOrder_pass_iff] at hpass
    revert hpass
    by_cases hs : m.BodyString = ""
    · have hS := isMatchBodyString_unset m hs
      cases hj : m.BodyJSON with
      | none =>
        by_cases hjs : m.BodyJSONString = "" <;> simp [bodyFieldsSet, hs, hj, hjs] at htwo
      | some doc =>
        have hjs : m.BodyJSONString ≠ "" := by
          intro hjs
          simp [bodyFieldsSet, hs, hj, hjs] at htwo
        have hsplit : stages lib = [matchPath, matchMethod lib, isMatchBodyString] ++
            isMatchBodyJSON lib :: ([] ++ isMatchBodyJSONString lib ::
              [isMatchPartOfHeader, matchHeader, isMatchPartOfQuery lib, matchQuery lib,
                matchCustom]) := rfl
        rw [hsplit]
        apply two_body_readers_never_pass
        · intro f hf
          simp only [List.mem_cons, List.mem_singleton, List.not_mem_nil, or_false] at hf
          rcases hf with h | h | h <;> subst h <;> assumption
        · intro f hf
          simp at hf
        · exact isMatchBodyJSON_reads lib hempty m doc hj
        · exact isMatchBodyJSONString_reads lib hempty m hjs
    · cases hj : m.BodyJSON with
      | none =>
        have hJ := isMatchBodyJSON_unset lib m hj
        have hjs : m.BodyJSONString ≠ "" := by
          intro hjs
          simp [bodyFieldsSet, hs, hj, hjs] at htwo
        have hsplit : stages lib = [matchPath, matchMethod lib] ++
            isMatchBodyString :: ([isMatchBodyJSON lib] ++ isMatchBodyJSONString lib ::
              [isMatchPartOfHeader, matchHeader, isMatchPartOfQuery lib, matchQuery lib,
                matchCustom]) := rfl
        rw [hsplit]
        apply two_body_readers_never_pass
        · intro f hf
          simp only [List.mem_cons, List.mem_singleton, List.not_mem_nil, or_false] at hf
          rcases hf with h | h <;> subst h <;> assumption
        · intro f hf
          simp only [List.mem_singleton] at hf
          subst hf
          exact hJ
        · exact isMatchBodyString_reads m hs
        · exact isMatchBodyJSONString_reads lib hempty m hjs
      | some doc =>
        have hsplit : stages lib = [matchPath, matchMethod lib] ++
            isMatchBodyString :: ([] ++ isMatchBodyJSON lib ::
              [isMatchBodyJSONString lib, isMatchPartOfHeader, matchHeader,
                isMatchPartOfQuery lib, matchQuery lib, matchCustom]) := rfl
        rw [hsplit]
        apply two_body_readers_never_pass
        · intro f hf
          simp only [List.mem_cons, List.mem_singleton, List.not_mem_nil, or_false] at hf
          rcases hf with h | h <;> subst h <;> assumption
        · intro f hf
          simp at hf
        · exact isMatchBodyString_reads m hs
        · exact isMatchBodyJSON_reads lib hempty m doc hj
  · intro r
    refine ⟨?_, ?_, ?_⟩
    · intro hs hpass
      rw [isMatchBodyString_set r m hs] at hpass ⊢
      rw [readBody_pass_drains _ r hpass]
    · intro hj hpass
      cases hdoc : m.BodyJSON with
      | none => exact absurd hdoc hj
      | some doc =>
        rw [isMatchBodyJSON_set lib r m doc hdoc] at hpass ⊢
        rw [readBody_pass_drains _ r hpass]
    · intro hs hpass
      rw [isMatchBodyJSONString_set lib r m hs] at hpass ⊢
      rw [readBody_pass_drains _ r hpass]
  · intro r hr
    refine ⟨?_, ?_, ?_⟩
    · intro hs
      rw [isMatchBodyString_set r m hs, readBody_drained _ r hr]
      simpa using hs
    · intro hj
      cases hdoc : m.BodyJSON with
      | none => exact absurd hdoc hj
      | some doc =>
        rw [isMatchBodyJSON_set lib r m doc hdoc, readBody_drained _ r hr]
        exact hempty doc
    · intro hs
      rw [isMatchBodyJSONString_set lib r m hs, readBody_drained _ r hr]
      exact hempty _

/-- Claim C21 at a concrete input: with the body and both body fields the same
JSON object, `isMatch` does not return `true, nil`. -/
theorem isMatch_two_body_fields_never_match_witness :
    (isMatch refLib jsonA stringAndJSON).1 ≠ (true, none) :=
  (isMatch_two_body_fields_never_match refLib refLib_rejectsEmptyBody jsonA stringAndJSON
    (by decide)).1

theorem isMatchPartOfHeader_false_of_not_true (req : Request) (m : Matcher)
    (h : (isMatchPartOfHeader req m).1 ≠ (true, none)) :
    (isMatchPartOfHeader req m).1 = (false, none) := by
  have he : (isMatchPartOfHeader req m).1.2 = none := rfl
  rcases hv : (isMatchPartOfHeader req m).1 with ⟨b, e⟩
  rw [hv] at h he
  simp only at he
  subst he
  cases b
  · rfl
  · exact absurd rfl h

theorem isMatchPartOfQuery_false_of_not_true (lib : Lib) (req : Request) (m : Matcher)
    (h : (isMatchPartOfQuery lib req m).1 ≠ (true, none)) :
    (isMatchPartOfQuery lib req m).1 = (false, none) := by
  have he : (isMatchPartOfQuery lib req m).1.2 = none :=
    ((isMatchPartOfQuery_inert lib m) req).2.1
  rcases hv : (isMatchPartOfQuery lib req m).1 with ⟨b, e⟩
  rw [hv] at h he
  simp only at he
  subst he
  cases b
  · rfl
  · exact absurd rfl h

/-- Claim C22. Exact matching implies subset matching: for every request and
every non-nil header set `H`, if `matchHeader` with `Header` set to `H` returns
`true`, then `isMatchPartOfHeader` with `PartOfHeader` set to `H` returns
`true, nil`. The converse fails: the request with the headers FOO and BAR
satisfies the subset predicate for the header set with FOO alone, and not the
exact one. -/
theorem exact_header_implies_subset (req : Request) (H : StringsMap) (m1 m2 : Matcher)
    (h1 : m1.Header = some H) (h2 : m2.PartOfHeader = some H) :
    ((matchHeader req m1).1.1 = true → (isMatchPartOfHeader req m2).1 = (true, none)) ∧
    (someFoo.PartOfHeader = onlyFoo.Header ∧
      (isMatchPartOfHeader fooBarRequest someFoo).1 = (true, none) ∧
      (matchHeader fooBarRequest onlyFoo).1 = (false, none)) := by
  refine ⟨?_, rfl, by decide, by decide⟩
  intro h
  have hde : deepEqualMap (some H) req.Header = true := by
    simpa [matchHeader, h1] using h
  have hidx := ((deepEqualMap_iff _ _).1 hde).2
  rw [isMatchPartOfHeader_true_iff, h2]
  intro k v hk
  refine ⟨v, ?_, fun ys hys => hys⟩
  rw [hidx k]
  exact hk

/-- Claim C22 at a concrete input: the request with the header FOO alone
satisfies the exact predicate for that header set, hence the subset one. -/
theorem exact_header_implies_subset_witness :
    (isMatchPartOfHeader fooRequest someFoo).1 = (true, none) :=
  (exact_header_implies_subset fooRequest ⟨[("FOO", some ["foo"])], by decide⟩ onlyFoo someFoo
    rfl rfl).1 (by decide)

/-- Claim C23. Keys are looked up as they are written. When `isMatchPartOfHeader`
returns `true`, every key listed in `PartOfHeader` is the key of an entry of the
request's header map, as the very same string; when no entry of the header map
has a listed key as its key, the result is the non-match `false, nil`. The same
holds of `isMatchPartOfQuery` and the parsed query. In particular a request
whose one header has another key than the one key the matcher lists is a
non-match, also when the two keys differ in letter case only: the header foo
does not satisfy a matcher that lists FOO, although `strings.EqualFold` holds of
the two and the method foo matches the matcher method FOO. -/
theorem partOf_keys_are_exact (lib : Lib) (req : Request) (m : Matcher) :
    (∀ k v, index m.PartOfHeader k = some v → (isMatchPartOfHeader req m).1.1 = true →
      ∃ hm a, req.Header = some hm ∧ (k, a) ∈ hm.entries) ∧
    (∀ k v, index m.PartOfHeader k = some v →
      (∀ hm, req.Header = some hm → ∀ kv ∈ hm.entries, kv.1 ≠ k) →
      (isMatchPartOfHeader req m).1 = (false, none)) ∧
    (∀ k v, index m.PartOfQuery k = some v → (isMatchPartOfQuery lib req m).1.1 = true →
      ∃ a, (k, a) ∈ (lib.parseQuery req.URL.RawQuery).entries) ∧
    (∀ k v, index m.PartOfQuery k = some v →
      (∀ kv ∈ (lib.parseQuery req.URL.RawQuery).entries, kv.1 ≠ k) →
      (isMatchPartOfQuery lib req m).1 = (false, none)) ∧
    (∀ k k' a v h1 h2, k ≠ k' → req.Header = some ⟨[(k', a)], h1⟩ →
      m.PartOfHeader = some ⟨[(k, v)], h2⟩ →
      (isMatchPartOfHeader req m).1 = (false, none)) ∧
    ((isMatchPartOfHeader lowerFooRequest anyFoo).1 = (false, none) ∧
      EqualFold lib "FOO" "foo" = true ∧
      (matchMethod lib fooMethod { Method := "FOO" }).1 = (true, none)) := by
  have hH : ∀ k v, index m.PartOfHeader k = some v → (isMatchPartOfHeader req m).1.1 = true →
      ∃ hm a, req.Header = some hm ∧ (k, a) ∈ hm.entries := by
    intro k v hk ht
    rw [isMatchPartOfHeader_bool, isMatchPartOfHeader_true_iff] at ht
    obtain ⟨a, ha, _⟩ := ht k v hk
    cases hh : req.Header with
    | none =>
      rw [hh] at ha
      simp [index] at ha
    | some hm =>
      rw [hh] at ha
      exact ⟨hm, a, rfl, (index_some_iff hm k a).1 ha⟩
  have hHn : ∀ k v, index m.PartOfHeader k = some v →
      (∀ hm, req.Header = some hm → ∀ kv ∈ hm.entries, kv.1 ≠ k) →
      (isMatchPartOfHeader req m).1 = (false, none) := by
    intro k v hk hno
    apply isMatchPartOfHeader_false_of_not_true
    intro ht
    obtain ⟨hm, a, hh, hmem⟩ := hH k v hk (by rw [ht])
    exact hno hm hh (k, a) hmem rfl
  have hQ : ∀ k v, index m.PartOfQuery k = some v → (isMatchPartOfQuery lib req m).1.1 = true →
      ∃ a, (k, a) ∈ (lib.parseQuery req.URL.RawQuery).entries := by
    intro k v hk ht
    rw [isMatchPartOfQuery_bool, isMatchPartOfQuery_true_iff] at ht
    obtain ⟨a, ha, _⟩ := ht k v hk
    exact ⟨a, (index_some_iff _ k a).1 ha⟩
  refine ⟨hH, hHn, hQ, ?_, ?_, by decide, rfl, rfl⟩
  · intro k v hk hno
    apply isMatchPartOfQuery_false_of_not_true
    intro ht
    obtain ⟨a, hmem⟩ := hQ k v hk (by rw [ht])
    exact hno (k, a) hmem rfl
  · intro k k' a v h1 h2 hne hreq hm
    apply hHn k v
    · rw [hm]
      simp [index, lookupEntries]
    · intro hmap hh kv hkv
      rw [hreq] at hh
      simp only [Option.some.injEq] at hh
      subst hh
      simp only [List.mem_singleton] at hkv
      subst hkv
      exact fun h => hne h.symm

/-- Claim C23 at a concrete input: the query parameter Name, with a capital
letter, does not satisfy a matcher that lists name. -/
theorem partOf_keys_are_exact_witness :
    (isMatchPartOfQuery refLib capitalName anyName).1 = (false, none) :=
  (partOf_keys_are_exact refLib capitalName anyName).2.2.2.1 "name" none (by decide) (by decide)

end Flute
